import Mathlib

/-!
Formal model of the IDPC balance-extraction and tax-calculation program.

The development shallowly embeds the two core modules:

* `regimen_14d3.py` — the pure tax engine (`calcular_sin_incentivo`,
  `calcular_con_incentivo`).  Python integers are modelled as `Int`.
  The Python expressions `int(x * 0.125)` and `int(x * 0.50)` multiply an
  integer-valued float by an exactly representable binary constant (1/8,
  resp. 1/2) and then truncate toward zero; for every `|x| < 2^53` the
  float product is exact, so they are modelled as `Int.tdiv x 8` and
  `Int.tdiv x 2` (truncating division, rounding toward zero).

* `extractor.py` — the layout-inference extraction engine.  Python dicts
  are modelled as association lists with first-occurrence key order and
  in-place update, exactly mirroring dict insertion semantics; x/y
  coordinates are modelled as exact rationals represented by the
  executable unnormalized-fraction type `Frac` below (the decimal
  constants of the source are taken as exact rationals); regular
  expression tests on tokens are modelled by executable character-level
  functions.
-/

set_option linter.unusedVariables false

namespace IDPC

/-! ## Tax engine: `regimen_14d3.py` -/

/-- Embeds the dataclass `ResultadoRLI` of `regimen_14d3.py`.
All monetary fields are integers and default to 0. -/
structure ResultadoRLI where
  total_ingresos : Int := 0
  total_egresos : Int := 0
  total_gastos_rechazados : Int := 0
  base_imponible : Int := 0
  idpc_sin_incentivo : Int := 0
  ppm : Int := 0
  saldo_sin_incentivo : Int := 0
  sub_total_base : Int := 0
  retiros_ejercicio : Int := 0
  multas_intereses_hist : Int := 0
  idpc_hist : Int := 0
  rli_invertida : Int := 0
  deduccion_incentivo : Int := 0
  porcentaje_rli : Int := 0
  uf_limite : Int := 0
  idpc_con_incentivo : Int := 0
  saldo_con_incentivo : Int := 0
deriving DecidableEq, Repr

/-- Embeds `calcular_sin_incentivo` (`regimen_14d3.py`, lines 204-225).
`TASA_IDPC = 0.125`; the Python `int(base * 0.125)` is `Int.tdiv base 8`
(see the file header). -/
def calcularSinIncentivo (total_ingresos total_egresos total_gastos_rechazados ppm : Int) :
    ResultadoRLI :=
  let base := total_ingresos - total_egresos + total_gastos_rechazados
  let idpc := Int.tdiv base 8
  { total_ingresos := total_ingresos
    total_egresos := total_egresos
    total_gastos_rechazados := total_gastos_rechazados
    ppm := ppm
    base_imponible := base
    idpc_sin_incentivo := idpc
    saldo_sin_incentivo := idpc - ppm }

/-- Embeds `calcular_con_incentivo` (`regimen_14d3.py`, lines 231-269).
`int(rli * 0.50)` is `Int.tdiv rli 2`, `int(ded * 0.125)` is
`Int.tdiv ded 8` (see the file header). -/
def calcularConIncentivo (total_ingresos total_egresos total_gastos_rechazados ppm
    retiros_ejercicio multas_hist idpc_hist uf_valor_pesos : Int) : ResultadoRLI :=
  let sub := total_ingresos - total_egresos + total_gastos_rechazados
  let rli := sub - retiros_ejercicio - multas_hist - idpc_hist
  let porcentaje := Int.tdiv rli 2
  let ded0 := min porcentaje uf_valor_pesos
  let ded := if ded0 < 0 then 0 else ded0
  let idpc := Int.tdiv ded 8
  { total_ingresos := total_ingresos
    total_egresos := total_egresos
    total_gastos_rechazados := total_gastos_rechazados
    ppm := ppm
    retiros_ejercicio := retiros_ejercicio
    multas_intereses_hist := multas_hist
    idpc_hist := idpc_hist
    sub_total_base := sub
    rli_invertida := rli
    porcentaje_rli := porcentaje
    uf_limite := uf_valor_pesos
    deduccion_incentivo := ded
    idpc_con_incentivo := idpc
    saldo_con_incentivo := idpc - ppm }

/-! ## Extractor data model: `extractor.py`

Python dicts are modelled as association lists: insertion appends at the
end, updating an existing key keeps its position, lookup returns the
first (unique) occurrence.  This mirrors dict insertion order exactly. -/

/-- An exact rational number as an unnormalized fraction.  All values
built by the model have a positive denominator; under that convention
`add`, `sub`, `mul`, `divNat`, `abs`, `blt`, `ble` and `floor` compute
the exact rational operations (cross-multiplication comparisons and
floor division are valid for positive denominators). -/
structure Frac where
  num : Int
  den : Int
deriving DecidableEq, Repr

/-- The integer `n` as a fraction. -/
def Frac.ofInt (n : Int) : Frac := ⟨n, 1⟩

def Frac.add (a b : Frac) : Frac := ⟨a.num * b.den + b.num * a.den, a.den * b.den⟩

def Frac.sub (a b : Frac) : Frac := ⟨a.num * b.den - b.num * a.den, a.den * b.den⟩

def Frac.mul (a b : Frac) : Frac := ⟨a.num * b.num, a.den * b.den⟩

/-- Division by a positive integer constant. -/
def Frac.divNat (a : Frac) (n : Nat) : Frac := ⟨a.num, a.den * n⟩

def Frac.abs (a : Frac) : Frac := ⟨|a.num|, |a.den|⟩

/-- Strict comparison `a < b` (for positive denominators). -/
def Frac.blt (a b : Frac) : Bool := a.num * b.den < b.num * a.den

/-- Comparison `a ≤ b` (for positive denominators). -/
def Frac.ble (a b : Frac) : Bool := a.num * b.den ≤ b.num * a.den

/-- `⌊a⌋` (for positive denominators). -/
def Frac.floor (a : Frac) : Int := Int.fdiv a.num a.den

/-- A positioned token, as produced by `page.extract_words`: its text and
the `x0`, `x1`, `top` coordinates used by the extractor. -/
structure Word where
  text : String
  x0 : Frac
  x1 : Frac
  top : Frac
deriving DecidableEq, Repr

/-- A page: its width and its token list (in extraction order). -/
structure Page where
  width : Frac
  words : List Word
deriving DecidableEq, Repr

/-- The x-center `(w["x0"] + w["x1"]) / 2` of a token. -/
def centroX (w : Word) : Frac := (w.x0.add w.x1).divNat 2

/-- Dict lookup: first binding of the key, if any. -/
def dictGet? {α : Type} : List (String × α) → String → Option α
  | [], _ => none
  | (k, v) :: rest, key => if k = key then some v else dictGet? rest key

/-- Dict assignment `d[key] = v`: update in place, else append. -/
def dictSet {α : Type} : List (String × α) → String → α → List (String × α)
  | [], key, v => [(key, v)]
  | (k, w) :: rest, key, v =>
    if k = key then (k, v) :: rest else (k, w) :: dictSet rest key v

/-- `d[key] = d.get(key, 0) + v`: add into an existing binding, else append. -/
def dictAdd : List (String × Int) → String → Int → List (String × Int)
  | [], key, v => [(key, v)]
  | (k, w) :: rest, key, v =>
    if k = key then (k, w + v) :: rest else (k, w) :: dictAdd rest key v

/-- ASCII uppercase of a string, modelling Python `str.upper` on the
ASCII header labels that occur here. -/
def strUpper (s : String) : String := ⟨s.data.map Char.toUpper⟩

/-! ### Column detection (`_detectar_columnas_x`, lines 32-67) -/

/-- The filter tuple of header labels (line 38-40).  Note that `"SALDO"`
is in the tuple but has no branch in the if/elif chain below. -/
def esPalabraEncabezado (t : String) : Bool :=
  ["CODIGO", "CUENTA", "DEBITOS", "CREDITOS", "DEUDOR", "ACREEDOR",
   "ACTIVOS", "PASIVOS", "PERDIDAS", "GANANCIAS", "SALDO"].contains t

/-- The if/elif chain of `_detectar_columnas_x` mapping an uppercased
header word to the column name it sets (lines 47-66). -/
def etiquetaColumna (t : String) : Option String :=
  if t = "CODIGO" then some "codigo"
  else if t = "CUENTA" then some "cuenta"
  else if t = "DEBITOS" then some "debitos"
  else if t = "CREDITOS" then some "creditos"
  else if t = "DEUDOR" then some "saldo_deudor"
  else if t = "ACREEDOR" then some "saldo_acreedor"
  else if t = "ACTIVOS" then some "activos"
  else if t = "PASIVOS" then some "pasivos"
  else if t = "PERDIDAS" then some "perdidas"
  else if t = "GANANCIAS" then some "ganancias"
  else none

/-- One loop iteration of `_detectar_columnas_x`: set `cols[name] = x`
for the column the word labels, if any. -/
def pasoEncabezado (cols : List (String × Frac)) (w : Word) : List (String × Frac) :=
  match etiquetaColumna (strUpper w.text) with
  | some nombre => dictSet cols nombre (centroX w)
  | none => cols

/-- Embeds `_detectar_columnas_x`: filter the header words, then fill the
`cols` dict in order.  (The early `return {}` for an empty filter result
coincides with folding over the empty list.) -/
def detectarColumnasX (words : List Word) : List (String × Frac) :=
  (words.filter (fun w => esPalabraEncabezado (strUpper w.text))).foldl
    pasoEncabezado []

/-- Embeds `_estimar_columnas_por_posicion` (lines 273-289); the decimal
constants are taken as exact rationals. -/
def estimarColumnasPorPosicion (w : Frac) : List (String × Frac) :=
  [("debitos", w.mul ⟨33, 100⟩),
   ("creditos", w.mul ⟨42, 100⟩),
   ("saldo_deudor", w.mul ⟨51, 100⟩),
   ("saldo_acreedor", w.mul ⟨59, 100⟩),
   ("activos", w.mul ⟨67, 100⟩),
   ("pasivos", w.mul ⟨73, 100⟩),
   ("perdidas", w.mul ⟨82, 100⟩),
   ("ganancias", w.mul ⟨92, 100⟩)]

/-- The column choice of `_extraer_cuentas_pagina`, lines 210-215: header
detection, then the proportional fallback when fewer than 4 entries
(of any kind, the `codigo`/`cuenta` anchors included) were detected. -/
def columnasParaPagina (words : List Word) (width : Frac) : List (String × Frac) :=
  let d := detectarColumnasX words
  if d.length < 4 then estimarColumnasPorPosicion width else d

/-- All ten column names the if/elif chain can set, in source order. -/
def etiquetasTodas : List String :=
  ["codigo", "cuenta", "debitos", "creditos", "saldo_deudor", "saldo_acreedor",
   "activos", "pasivos", "perdidas", "ganancias"]

/-- The eight numeric columns, in the order of `columnas_numericas`
(lines 252-253). -/
def columnasNumericas : List String :=
  ["debitos", "creditos", "saldo_deudor", "saldo_acreedor",
   "activos", "pasivos", "perdidas", "ganancias"]

/-- Some token of the page matches the given column label. -/
def etiquetaCoincide (words : List Word) (nombre : String) : Bool :=
  words.any (fun w => etiquetaColumna (strUpper w.text) == some nombre)

/-- Number of distinct column names (anchors included) matched by the
header scan. -/
def cuentaEtiquetas (words : List Word) : Nat :=
  (etiquetasTodas.filter (etiquetaCoincide words)).length

/-- Number of distinct numeric column names matched by the header scan. -/
def cuentaEtiquetasNumericas (words : List Word) : Nat :=
  (columnasNumericas.filter (etiquetaCoincide words)).length

/-- A concrete page header exposing both anchors and only two numeric
columns: `CODIGO`, `CUENTA`, `DEBITOS`, `CREDITOS`. -/
def palabrasEncabezadoEjemplo : List Word :=
  [⟨"CODIGO", ⟨0, 1⟩, ⟨10, 1⟩, ⟨0, 1⟩⟩, ⟨"CUENTA", ⟨20, 1⟩, ⟨30, 1⟩, ⟨0, 1⟩⟩,
   ⟨"DEBITOS", ⟨40, 1⟩, ⟨50, 1⟩, ⟨0, 1⟩⟩, ⟨"CREDITOS", ⟨60, 1⟩, ⟨70, 1⟩, ⟨0, 1⟩⟩]

/-! ### Token patterns and the row pipeline (`_extraer_cuentas_pagina`) -/

/-- `_CODIGO_PATTERN` = 6-digit pattern, line 21: exactly six digits.
(The Python `$` would also tolerate one trailing newline; tokens produced
by `extract_words` never contain whitespace.) -/
def matchesCodigo (s : String) : Bool :=
  s.data.length == 6 && s.data.all Char.isDigit

/-- The numeric-token test of lines 236 and 244 (digits-and-dots): one or
more characters, each a digit or a dot. -/
def esNumerico (s : String) : Bool :=
  !s.data.isEmpty && s.data.all (fun c => c.isDigit || c == '.')

/-- Embeds `_fmt_numero` (lines 24-29): strip non-digits and parse the
rest as a decimal integer (empty and all-separator inputs give 0). -/
def fmtNumero (s : String) : Int :=
  Int.ofNat ((s.data.filter Char.isDigit).foldl (fun n c => 10 * n + (c.toNat - 48)) 0)

/-- Python `round` on an exact rational: round half to even. -/
def pythonRound (q : Frac) : Int :=
  let f := q.floor
  let r := q.sub (Frac.ofInt f)
  if r.blt ⟨1, 2⟩ then f
  else if Frac.blt ⟨1, 2⟩ r then f + 1
  else if f % 2 = 0 then f
  else f + 1

/-- The row key `round(w["top"] / 3) * 3` (line 203). -/
def claveY (w : Word) : Int := pythonRound (w.top.divNat 3) * 3

/-- `lineas_dict.setdefault(y_key, []).append(w)` (line 204): append `w`
to the group of key `k`, keeping first-occurrence group order. -/
def agregarAlGrupo : List (Int × List Word) → Int → Word → List (Int × List Word)
  | [], k, w => [(k, [w])]
  | (k0, ws) :: rest, k, w =>
    if k0 = k then (k0, ws ++ [w]) :: rest
    else (k0, ws) :: agregarAlGrupo rest k w

/-- Stable insertion into a sorted list: the element is placed after all
existing elements `y` with `le y x`. -/
def insertarOrdenado {α : Type} (le : α → α → Bool) (x : α) : List α → List α
  | [] => [x]
  | y :: ys => if le y x then y :: insertarOrdenado le x ys else x :: y :: ys

/-- Stable sort (insertion sort), modelling Python `sorted`/`list.sort`. -/
def ordenar {α : Type} (le : α → α → Bool) (l : List α) : List α :=
  l.foldl (fun acc x => insertarOrdenado le x acc) []

/-- The rows of a page: group words by `claveY` (first-occurrence order,
lines 201-204), then sort the groups by key (line 207). -/
def agrupaLineas (words : List Word) : List (Int × List Word) :=
  ordenar (fun a b => decide (a.1 ≤ b.1))
    (words.foldl (fun acc w => agregarAlGrupo acc (claveY w) w) [])

/-- A row sorted by `x0` (line 218). -/
def ordenarFila (fila : List Word) : List Word :=
  ordenar (fun a b => a.x0.ble b.x0) fila

/-- The first token matching the 6-digit pattern, with its index
(lines 221-228). -/
def buscarCodigo : List String → Option (String × Nat)
  | [] => none
  | t :: rest =>
    if matchesCodigo t then some (t, 0)
    else (buscarCodigo rest).map (fun p => (p.1, p.2 + 1))

/-- `" ".join(parts)` (line 239). -/
def unirConEspacios : List String → String
  | [] => ""
  | [s] => s
  | s :: rest => s ++ " " ++ unirConEspacios rest

/-- The candidate value tokens of a row (lines 241-245): x-center and
parsed value of every numeric token of the (sorted) row. -/
def valoresDeFila (fila : List Word) : List (Frac × Int) :=
  (ordenarFila fila).foldl
    (fun acc w =>
      if esNumerico w.text then acc ++ [(centroX w, fmtNumero w.text)] else acc)
    []

/-- Embeds `_asignar_columna` (lines 70-74): Python `min` keeps the
first binding with minimal distance. -/
def asignarColumna (x : Frac) (cols : List (String × Frac)) : Option String :=
  match cols with
  | [] => none
  | kv0 :: rest =>
    some ((rest.foldl
      (fun best kv => if (kv.2.sub x).abs.blt (best.2.sub x).abs then kv else best)
      kv0).1)

/-- The numeric-column restriction of line 256: the dict comprehension
iterates `columnas_numericas` in order. -/
def colsNumericas (cols : List (String × Frac)) : List (String × Frac) :=
  columnasNumericas.foldl
    (fun acc k =>
      match dictGet? cols k with
      | some v => acc ++ [(k, v)]
      | none => acc)
    []

/-- One iteration of the value-assignment loop (lines 255-258): the
value token is added into the column nearest to it when the column
exists and the value is positive.  (The assigned column names are never
the empty string, so the Python truthiness test on `col` is its `some`
case.) -/
def pasoValor (cols : List (String × Frac)) (m : List (String × Int)) (xv : Frac × Int) :
    List (String × Int) :=
  match asignarColumna xv.1 (colsNumericas cols) with
  | some col => if 0 < xv.2 then dictAdd m col xv.2 else m
  | none => m

/-- The per-row amounts dict (lines 251-258). -/
def montosDeFila (cols : List (String × Frac)) (fila : List Word) : List (String × Int) :=
  (valoresDeFila fila).foldl (pasoValor cols) []

/-- The balance-relevant columns (lines 261-262; a set literal used only
for membership tests, so list order is immaterial). -/
def columnasRelevantes : List String :=
  ["activos", "pasivos", "perdidas", "ganancias", "saldo_deudor", "saldo_acreedor"]

/-- `any(k in registro for k in cols_relevantes)` (line 263). -/
def tieneRelevante (m : List (String × Int)) : Bool :=
  columnasRelevantes.any (fun k => (dictGet? m k).isSome)

/-- An account record: the name stored under `"cuenta"` plus the integer
amounts per column (the dynamically typed Python row dict, split by the
type of the value). -/
structure Registro where
  cuenta : String
  montos : List (String × Int)
deriving DecidableEq, Repr

/-- The ledger `cuentas`: a dict from 6-digit code to record. -/
abbrev Cuentas := List (String × Registro)

/-- What one source row contributes (lines 217-263): find the code
anchor, build the name span, collect the numeric values, assign them to
columns, and keep the row only when a balance-relevant column is
present. -/
def nombreDeFila (fila : List Word) (i : Nat) : String :=
  unirConEspacios
    (((((ordenarFila fila).map Word.text)).drop (i + 1)).takeWhile (fun t => !esNumerico t))

def efectoFila (cols : List (String × Frac)) (fila : List Word) : Option (String × Registro) :=
  match buscarCodigo ((ordenarFila fila).map Word.text) with
  | none => none
  | some (codigo, i) =>
    if (valoresDeFila fila).isEmpty then none
    else if tieneRelevante (montosDeFila cols fila) then
      some (codigo, ⟨nombreDeFila fila i, montosDeFila cols fila⟩)
    else none

/-- Replace the value at the first occurrence of a key. -/
def actualizarPrimera : Cuentas → String → Registro → Cuentas
  | [], _, _ => []
  | (k, r) :: rest, key, nuevo =>
    if k = key then (k, nuevo) :: rest else (k, r) :: actualizarPrimera rest key nuevo

/-- Sum a row dict into an existing amounts dict (lines 268-270). -/
def acumularMontos (base : List (String × Int)) (nuevos : List (String × Int)) :
    List (String × Int) :=
  nuevos.foldl (fun m kv => dictAdd m kv.1 kv.2) base

/-- Insert or merge one row record into the ledger (lines 263-270): a
new code is appended; for an existing code the integer columns are
summed and the stored `"cuenta"` name is kept. -/
def mergeCuenta (cuentas : Cuentas) (codigo : String) (reg : Registro) : Cuentas :=
  match dictGet? cuentas codigo with
  | none => cuentas ++ [(codigo, reg)]
  | some viejo =>
    actualizarPrimera cuentas codigo ⟨viejo.cuenta, acumularMontos viejo.montos reg.montos⟩

/-- One iteration of the row loop of `_extraer_cuentas_pagina`. -/
def pasoFila (cols : List (String × Frac)) (c : Cuentas) (fila : Int × List Word) : Cuentas :=
  match efectoFila cols fila.2 with
  | none => c
  | some (codigo, reg) => mergeCuenta c codigo reg

/-- Embeds `_extraer_cuentas_pagina` (lines 189-270). -/
def extraerCuentasPagina (page : Page) (cuentas : Cuentas) : Cuentas :=
  if page.words.isEmpty then cuentas
  else
    (agrupaLineas page.words).foldl
      (pasoFila (columnasParaPagina page.words page.width))
      cuentas

/-- The page loop of `extraer_balance` (lines 102-109), starting from
the empty ledger. -/
def extraerTodasLasPaginas (pages : List Page) : Cuentas :=
  pages.foldl (fun c p => extraerCuentasPagina p c) []

/-- Extensional view: the stored amount of a code in a column. -/
def montoDe (c : Cuentas) (codigo col : String) : Option Int :=
  (dictGet? c codigo).bind (fun reg => dictGet? reg.montos col)

/-- Embeds `existe_cuenta` (lines 318-319). -/
def existeCuenta (c : Cuentas) (codigo : String) : Bool :=
  (dictGet? c codigo).isSome

/-- The priority order of `get_valor` (line 307). -/
def ordenPrioridad : List String :=
  ["ganancias", "perdidas", "activos", "pasivos", "saldo_acreedor", "saldo_deudor"]

/-- The priority loop of `get_valor` (lines 307-310): the first column
in the order that is present with a strictly positive amount. -/
def buscarPrioridadAux (m : List (String × Int)) : List String → Int
  | [] => 0
  | c :: rest =>
    match dictGet? m c with
    | some v => if 0 < v then v else buscarPrioridadAux m rest
    | none => buscarPrioridadAux m rest

def buscarPrioridad (m : List (String × Int)) : Int := buscarPrioridadAux m ordenPrioridad

/-- Embeds `get_valor` (lines 295-310).  `none` models Python `None`.
The Python test `if columna:` is falsy both for `None` and for the empty
string, so `some ""` takes the priority scan as well.  (The amounts dict
holds the integer columns; the `"cuenta"` name is stored apart in the
typed model.) -/
def getValor (cuentas : Cuentas) (codigo : String) (columna : Option String) : Int :=
  match dictGet? cuentas codigo with
  | none => 0
  | some reg =>
    match columna with
    | some c => if c = "" then buscarPrioridad reg.montos else (dictGet? reg.montos c).getD 0
    | none => buscarPrioridad reg.montos

/-! ### Claim-side views of accumulation (for C3, C6, C9) -/

/-- Combine optional amounts: absent acts as 0, two present values add. -/
def someAdd : Option Int → Option Int → Option Int
  | none, b => b
  | some a, none => some a
  | some a, some b => some (a + b)

def listaSomeAdd (l : List (Option Int)) : Option Int := l.foldr someAdd none

/-- Sum of all values bound to a key (defined for duplicate keys too). -/
def sumaClave (key : String) : List (String × Int) → Option Int
  | [] => none
  | kv :: rest =>
    if kv.1 = key then someAdd (some kv.2) (sumaClave key rest) else sumaClave key rest

/-- The contribution of one row to a given code and column: the amount in
its kept record when its code matches. -/
def contribFila (cols : List (String × Frac)) (fila : List Word) (code col : String) :
    Option Int :=
  match efectoFila cols fila with
  | some (cod, reg) => if cod = code then dictGet? reg.montos col else none
  | none => none

/-- The row contributions of one page. -/
def contribsDePagina (p : Page) (code col : String) : List (Option Int) :=
  if p.words.isEmpty then []
  else (agrupaLineas p.words).map
    (fun fila => contribFila (columnasParaPagina p.words p.width) fila.2 code col)

/-- The row contributions of a whole document, page by page, row by row. -/
def contribFilasDoc (pages : List Page) (code col : String) : List (Option Int) :=
  (pages.map (fun p => contribsDePagina p code col)).flatten

/-- The list `a1..an` of per-row amounts contributed to a code and a
column by the rows that pass the balance-relevance filter. -/
def contribucionesDe (pages : List Page) (code col : String) : List Int :=
  (contribFilasDoc pages code col).filterMap id

/-- Whether a row is kept and carries the given code. -/
def filaAporta (cols : List (String × Frac)) (fila : List Word) (code : String) : Bool :=
  match efectoFila cols fila with
  | some (cod, _) => cod == code
  | none => false

/-- Whether some kept row of the page carries the code. -/
def paginaTieneCodigo (p : Page) (code : String) : Bool :=
  !p.words.isEmpty &&
    (agrupaLineas p.words).any
      (fun fila => filaAporta (columnasParaPagina p.words p.width) fila.2 code)

/-- Per-row contribution ignoring the balance-relevance filter: what a
classified row assigns to a column whether or not the row is kept (the
claim-side reading in which no contribution is ever dropped). -/
def contribFilaSinFiltro (cols : List (String × Frac)) (fila : List Word)
    (code col : String) : Option Int :=
  match buscarCodigo ((ordenarFila fila).map Word.text) with
  | some (cod, _) => if cod = code then dictGet? (montosDeFila cols fila) col else none
  | none => none

/-- Per-row contributions of a document ignoring the relevance filter. -/
def contribucionesSinFiltroDe (pages : List Page) (code col : String) : List Int :=
  ((pages.map (fun p =>
    if p.words.isEmpty then []
    else (agrupaLineas p.words).map
      (fun fila => contribFilaSinFiltro (columnasParaPagina p.words p.width) fila.2 code col))).flatten).filterMap id

/-- All ledger codes pass the 6-digit pattern. -/
def codigosValidos (c : Cuentas) : Bool := c.all (fun kv => matchesCodigo kv.1)

/-! ### Concrete example pages and rows -/

/-- Example page: one row where the code token sits on the `debitos`
fallback column (x-center 33 of width 100) and a value token `7` sits on
the `ganancias` fallback column (x-center 92). -/
def pagEj1 : Page :=
  ⟨Frac.ofInt 100,
   [⟨"123456", ⟨30, 1⟩, ⟨36, 1⟩, ⟨0, 1⟩⟩, ⟨"7", ⟨91, 1⟩, ⟨93, 1⟩, ⟨0, 1⟩⟩]⟩

/-- Example page: the same code with only a `debitos` hit; the row has no
balance-relevant column, so the code path drops it. -/
def pagEj2 : Page :=
  ⟨Frac.ofInt 100, [⟨"123456", ⟨30, 1⟩, ⟨36, 1⟩, ⟨0, 1⟩⟩]⟩

/-- A classified example row: code, name token, one value token. -/
def filaEjemploC5 : List Word :=
  [⟨"123456", ⟨0, 1⟩, ⟨2, 1⟩, ⟨0, 1⟩⟩, ⟨"VENTAS", ⟨3, 1⟩, ⟨5, 1⟩, ⟨0, 1⟩⟩,
   ⟨"7", ⟨91, 1⟩, ⟨93, 1⟩, ⟨0, 1⟩⟩]

/-- A row whose code anchor is the all-zero code. -/
def filaCeroEjemplo : List Word := [⟨"000000", ⟨0, 1⟩, ⟨2, 1⟩, ⟨0, 1⟩⟩]

/-- A one-record ledger with a positive `ganancias` amount. -/
def cuentasEjemploC10 : Cuentas := [("300101", ⟨"VENTAS", [("ganancias", 5)]⟩)]

/-- Claim-side reading of the priority scan: the first strictly positive
amount found along the order, 0 when there is none. -/
def primeraPositiva (m : List (String × Int)) (orden : List String) : Int :=
  (orden.filterMap
    (fun c => (dictGet? m c).bind (fun v => if 0 < v then some v else none))).headD 0

/-! ### Company header parsing (`_extraer_datos_empresa`, lines 115-182)

The two regular expressions of the source are implemented as executable
character-level matchers with the same semantics: `_RUT_PATTERN` is
matched greedily (leftmost start, two leading digits preferred over one,
longest separator run first), and `_PERIODO_PATTERN` is matched on the
uppercased text, where its alternation of month names is
prefix-free. -/

/-- The `empresa` dict of `extraer_balance` (lines 93-100). -/
structure Empresa where
  razon_social : String
  rut : String
  giro : String
  direccion : String
  comuna : String
  periodo : String
deriving DecidableEq, Repr

def empresaVacia : Empresa := ⟨"", "", "", "", "", ""⟩

/-- Split at newline characters (Python `splitlines` for the `\n`
boundary; a possible final empty piece is immaterial because the caller
keeps only non-empty stripped lines). -/
def partirLineasAux : List Char → List Char → List (List Char)
  | [], acc => [acc.reverse]
  | c :: rest, acc =>
    if c = '\n' then acc.reverse :: partirLineasAux rest []
    else partirLineasAux rest (c :: acc)

def partirLineas (s : String) : List String :=
  (partirLineasAux s.data []).map (fun l => ⟨l⟩)

/-- Python `str.strip`. -/
def recortar (s : String) : String :=
  ⟨((s.data.dropWhile Char.isWhitespace).reverse.dropWhile Char.isWhitespace).reverse⟩

/-- `[l.strip() for l in texto.splitlines() if l.strip()]` (line 125). -/
def lineasNoVacias (texto : String) : List String :=
  ((partirLineas texto).map recortar).filter (fun l => l ≠ "")

def esDigitoOPunto (c : Char) : Bool := c.isDigit || c = '.'

def esVerificador (c : Char) : Bool := c.isDigit || c = 'k' || c = 'K'

/-- Tail of the tax-id pattern after the leading digits: the star
consumes exactly `m` characters of digit-or-dot, then one digit, a dash
and a check character. -/
def colaRutOk (cs : List Char) (m : Nat) : Bool :=
  ((cs.take m).all esDigitoOPunto) &&
  (match cs.get? m with
   | some c => c.isDigit
   | none => false) &&
  (cs.get? (m + 1) == some '-') &&
  (match cs.get? (m + 2) with
   | some c => esVerificador c
   | none => false)

/-- Greedy search for the star length, longest first (regex
backtracking order). -/
def buscaColaRut (cs : List Char) : Nat → Option Nat
  | 0 => if colaRutOk cs 0 then some 0 else none
  | m + 1 => if colaRutOk cs (m + 1) then some (m + 1) else buscaColaRut cs m

def corridaPuntoDigito (cs : List Char) : Nat := (cs.takeWhile esDigitoOPunto).length

/-- Attempt with a single leading digit. -/
def rutConUnDigito : List Char → Option (List Char)
  | c1 :: rest =>
    if c1.isDigit then
      match buscaColaRut rest (corridaPuntoDigito rest) with
      | some m => some (c1 :: rest.take (m + 3))
      | none => none
    else none
  | [] => none

/-- A tax-id match anchored at the start of `cs`: two leading digits
preferred, as the greedy quantifier does. -/
def rutEnPosicion (cs : List Char) : Option (List Char) :=
  match cs with
  | c1 :: c2 :: rest =>
    if c1.isDigit && c2.isDigit then
      match buscaColaRut rest (corridaPuntoDigito rest) with
      | some m => some (c1 :: c2 :: rest.take (m + 3))
      | none => rutConUnDigito cs
    else rutConUnDigito cs
  | _ => rutConUnDigito cs

/-- The leftmost tax-id match of a line (`findall`, first element). -/
def primerRut : List Char → Option (List Char)
  | [] => none
  | c :: rest =>
    match rutEnPosicion (c :: rest) with
    | some r => some r
    | none => primerRut rest

/-- The search loop of lines 134-140: the first line (out of the first
15 non-empty ones, restricted by the caller) whose findall is nonempty,
with the matched tax id and the line index. -/
def buscarRutEnLineas : List String → Option (String × Nat)
  | [] => none
  | l :: rest =>
    match primerRut l.data with
    | some r => some (⟨r⟩, 0)
    | none => (buscarRutEnLineas rest).map (fun p => (p.1, p.2 + 1))

/-- The month alternation of `_MESES` (line 15); the names are
prefix-free, so at most one branch matches at a given position. -/
def MESES : List String :=
  ["ENERO", "FEBRERO", "MARZO", "ABRIL", "MAYO", "JUNIO", "JULIO", "AGOSTO",
   "SEPTIEMBRE", "OCTUBRE", "NOVIEMBRE", "DICIEMBRE"]

/-- Match a literal; return the rest of the input. -/
def quitaLiteral : List Char → List Char → Option (List Char)
  | [], cs => some cs
  | p :: ps, c :: cs => if c = p then quitaLiteral ps cs else none
  | _ :: _, [] => none

/-- One or more whitespace characters; the following atoms of the
pattern never match whitespace, so the maximal run is the only viable
choice.  Returns the consumed run and the rest. -/
def tomaEspacios (cs : List Char) : Option (List Char × List Char) :=
  match cs.takeWhile Char.isWhitespace with
  | [] => none
  | sp => some (sp, cs.drop sp.length)

def tomaMes : List String → List Char → Option (List Char × List Char)
  | [], _ => none
  | m :: ms, cs =>
    match quitaLiteral m.data cs with
    | some rest => some (m.data, rest)
    | none => tomaMes ms cs

/-- Exactly four digits. -/
def tomaCuatroDigitos (cs : List Char) : Option (List Char × List Char) :=
  if (cs.take 4).length == 4 && (cs.take 4).all Char.isDigit then
    some (cs.take 4, cs.drop 4)
  else none

/-- One captured group of the period pattern (month, spaces, `DEL`,
spaces, year): the exact matched text and the rest. -/
def tomaGrupoPeriodo (cs : List Char) : Option (List Char × List Char) := do
  let (mes, r1) ← tomaMes MESES cs
  let (s1, r2) ← tomaEspacios r1
  let r3 ← quitaLiteral "DEL".data r2
  let (s2, r4) ← tomaEspacios r3
  let (anio, r5) ← tomaCuatroDigitos r4
  pure (mes ++ s1 ++ "DEL".data ++ s2 ++ anio, r5)

/-- The whole `_PERIODO_PATTERN` (lines 17-20) anchored at the current
position: the two captured groups. -/
def periodoEnPosicion (cs : List Char) : Option (String × String) := do
  let r1 ← quitaLiteral "BALANCE".data cs
  let (_, r2) ← tomaEspacios r1
  let r3 ← quitaLiteral "DESDE".data r2
  let (_, r4) ← tomaEspacios r3
  let (g1, r5) ← tomaGrupoPeriodo r4
  let (_, r6) ← tomaEspacios r5
  let r7 ← quitaLiteral "HASTA".data r6
  let (_, r8) ← tomaEspacios r7
  let (g2, _) ← tomaGrupoPeriodo r8
  pure (⟨g1⟩, ⟨g2⟩)

/-- `_PERIODO_PATTERN.search` over the whole text. -/
def buscarPeriodo : List Char → Option (String × String)
  | [] => none
  | c :: rest =>
    match periodoEnPosicion (c :: rest) with
    | some g => some g
    | none => buscarPeriodo rest

/-- Lines 127-131: the pattern is applied with IGNORECASE to
`texto.upper()`, which is already upper case, so literal matching
suffices; on a match, `periodo` is `DESDE <g1> HASTA <g2>`. -/
def periodoDe (texto : String) : String :=
  match buscarPeriodo (strUpper texto).data with
  | some (g1, g2) => "DESDE " ++ g1 ++ " HASTA " ++ g2
  | none => ""

def esPrefijoDe (agu : List Char) (paj : List Char) : Bool :=
  (quitaLiteral agu paj).isSome

/-- Python `str.find` as an option: index of the first occurrence. -/
def posicionSub (agu : List Char) : List Char → Option Nat
  | [] => if esPrefijoDe agu [] then some 0 else none
  | c :: t =>
    if esPrefijoDe agu (c :: t) then some 0
    else (posicionSub agu t).map (· + 1)

def contieneSub (sub : String) (s : String) : Bool := (posicionSub sub.data s.data).isSome

/-- `"BALANCE" in linea.upper() or "DESDE" in linea.upper()`
(line 171). -/
def esLineaBalance (l : String) : Bool :=
  contieneSub "BALANCE" (strUpper l) || contieneSub "DESDE" (strUpper l)

/-- The field loop of lines 168-182, with the loop counter `j` and the
`giro_idx` state carried explicitly. -/
def camposAux : List String → Nat → Option Nat → Empresa → Empresa
  | [], _, _, e => e
  | linea :: rest, j, giroIdx, e =>
    if esLineaBalance linea then e
    else
      match giroIdx with
      | none =>
        if linea ≠ "" then camposAux rest (j + 1) (some j) { e with giro := linea }
        else camposAux rest (j + 1) none e
      | some g =>
        if j == g + 1 then camposAux rest (j + 1) (some g) { e with direccion := linea }
        else if j == g + 2 then { e with comuna := linea }
        else camposAux rest (j + 1) (some g) e

/-- `linea_rut.find(empresa["rut"])` (line 155): -1 when absent (it
never is: the tax id was found on that very line). -/
def posicionRut (lineaRut rut : String) : Int :=
  match posicionSub rut.data lineaRut.data with
  | some n => Int.ofNat n
  | none => -1

/-- Lines 152-182 after the tax-id line is at hand: split the line when
the tax id appears partway through it (offset 0), else skip it
(offset 1), then run the field loop on the remaining lines. -/
def terminaEmpresa (lineas : List String) (e3 : Empresa) (rutIdx : Nat)
    (lineaRut : String) : Empresa :=
  if posicionRut lineaRut e3.rut > 0 then
    camposAux (lineas.drop (rutIdx + 0)) 0 none
      { e3 with razon_social := recortar ⟨lineaRut.data.take (posicionRut lineaRut e3.rut).toNat⟩ }
  else
    camposAux (lineas.drop (rutIdx + 1)) 0 none e3

/-- Lines 138-182 once the tax id was found: record it, take the
previous line as the legal name when there is one, fetch the tax-id line
and finish.  The two raw list indexings of the source are total here
(`get?` with an unreachable default); `empresaConRutChk` below makes
them explicit. -/
def empresaConRut (lineas : List String) (e1 : Empresa) (rut : String) (rutIdx : Nat) :
    Empresa :=
  terminaEmpresa lineas
    (if rutIdx > 0 then
      { e1 with rut := rut, razon_social := (lineas.get? (rutIdx - 1)).getD "" }
     else { e1 with rut := rut })
    rutIdx ((lineas.get? rutIdx).getD "")

/-- Embeds `_extraer_datos_empresa` (lines 115-182) as a total function:
the period is extracted from the whole text first; without a tax id in
the first 15 non-empty lines only the legal name is (best-effort)
set. -/
def extraerDatosEmpresa (texto : String) : Empresa :=
  match buscarRutEnLineas ((lineasNoVacias texto).take 15) with
  | none =>
    match lineasNoVacias texto with
    | [] => { empresaVacia with periodo := periodoDe texto }
    | l0 :: _ => { empresaVacia with periodo := periodoDe texto, razon_social := l0 }
  | some (rut, rutIdx) =>
    empresaConRut (lineasNoVacias texto)
      { empresaVacia with periodo := periodoDe texto } rut rutIdx

/-- Checked list indexing: raises (as `Except.error`) out of range, as
Python indexing would. -/
def getE {α : Type} (l : List α) (i : Nat) : Except String α :=
  match l.get? i with
  | some x => Except.ok x
  | none => Except.error "list index out of range"

/-- `empresaConRut` with the raw list accesses `lineas[rut_idx - 1]` and
`lineas[rut_idx]` made explicit as fallible operations. -/
def empresaConRutChk (lineas : List String) (e1 : Empresa) (rut : String) (rutIdx : Nat) :
    Except String Empresa :=
  match (if rutIdx > 0 then
      match getE lineas (rutIdx - 1) with
      | Except.error e => Except.error e
      | Except.ok prev => Except.ok { e1 with rut := rut, razon_social := prev }
    else Except.ok { e1 with rut := rut }) with
  | Except.error e => Except.error e
  | Except.ok e3 =>
    match getE lineas rutIdx with
    | Except.error e => Except.error e
    | Except.ok lineaRut => Except.ok (terminaEmpresa lineas e3 rutIdx lineaRut)

/-- `_extraer_datos_empresa` with every fallible operation explicit. -/
def extraerDatosEmpresaChk (texto : String) : Except String Empresa :=
  match buscarRutEnLineas ((lineasNoVacias texto).take 15) with
  | none =>
    match lineasNoVacias texto with
    | [] => Except.ok { empresaVacia with periodo := periodoDe texto }
    | l0 :: _ => Except.ok { empresaVacia with periodo := periodoDe texto, razon_social := l0 }
  | some (rut, rutIdx) =>
    empresaConRutChk (lineasNoVacias texto)
      { empresaVacia with periodo := periodoDe texto } rut rutIdx

/-- A page-1 text with a period line but no tax id anywhere. -/
def textoEjemploC7 : String :=
  "EMPRESA X\nBALANCE DESDE ENERO DEL 2023 HASTA DICIEMBRE DEL 2023"

end IDPC

/-! ## Arithmetic helper lemmas -/

theorem IDPC.tdiv_eq_fdiv_of_nonneg {a : Int} (b : Nat) (h : 0 ≤ a) :
    Int.tdiv a (Int.ofNat b) = Int.fdiv a (Int.ofNat b) := by
  rw [Int.tdiv_eq_ediv h (by exact Int.ofNat_nonneg b),
    Int.fdiv_eq_ediv _ (by exact Int.ofNat_nonneg b)]

theorem IDPC.tdiv_dos_nonpos {a : Int} (h : a < 0) : Int.tdiv a 2 ≤ 0 := by
  match a with
  | Int.ofNat n => exact absurd (Int.ofNat_nonneg n) (not_le.mpr h)
  | Int.negSucc m =>
    show -Int.ofNat ((m + 1) / 2) ≤ 0
    exact neg_nonpos_of_nonneg (Int.ofNat_nonneg _)

/-! ## Claim C1 -/

/-- C1 counterexample.  The claim states that in mode NO_INCENTIVE the
income tax is `floor(taxable_base * 0.125)` also for negative
`taxable_base`.  At `income = 0, expenses = 7, disallowed = 0, ppm = 0`
the taxable base is `-7`; the code computes `int(-7 * 0.125) = 0`
(truncation toward zero), while the floor is `-1`. -/
theorem c1_counterexample :
    (IDPC.calcularSinIncentivo 0 7 0 0).base_imponible = -7 ∧
    (IDPC.calcularSinIncentivo 0 7 0 0).idpc_sin_incentivo = 0 ∧
    Int.fdiv ((IDPC.calcularSinIncentivo 0 7 0 0).base_imponible) 8 = -1 ∧
    (IDPC.calcularSinIncentivo 0 7 0 0).idpc_sin_incentivo ≠
      Int.fdiv ((IDPC.calcularSinIncentivo 0 7 0 0).base_imponible) 8 := by
  decide

/-- C1 (amended): in mode NO_INCENTIVE, for all non-negative integer
inputs, `taxable_base = income - expenses + disallowed_expenses`,
`income_tax` is `taxable_base * 0.125` truncated toward zero
(`Int.tdiv taxable_base 8`), which agrees with the floor exactly when
the taxable base is non-negative, and
`balance = income_tax - provisional_payments`. -/
theorem c1_sin_incentivo (ti te tg ppm : Int)
    (hti : 0 ≤ ti) (hte : 0 ≤ te) (htg : 0 ≤ tg) (hppm : 0 ≤ ppm) :
    (IDPC.calcularSinIncentivo ti te tg ppm).base_imponible = ti - te + tg ∧
    (IDPC.calcularSinIncentivo ti te tg ppm).idpc_sin_incentivo =
      Int.tdiv (ti - te + tg) 8 ∧
    (0 ≤ ti - te + tg →
      (IDPC.calcularSinIncentivo ti te tg ppm).idpc_sin_incentivo =
        Int.fdiv (ti - te + tg) 8) ∧
    (IDPC.calcularSinIncentivo ti te tg ppm).saldo_sin_incentivo =
      (IDPC.calcularSinIncentivo ti te tg ppm).idpc_sin_incentivo - ppm := by
  refine ⟨rfl, rfl, fun hbase => ?_, rfl⟩
  exact IDPC.tdiv_eq_fdiv_of_nonneg 8 hbase

/-- C1 witness: the amended theorem evaluated at the spec example
`income = 1000000, expenses = 400000, disallowed = 0, ppm = 50000`. -/
theorem c1_witness :
    (IDPC.calcularSinIncentivo 1000000 400000 0 50000).base_imponible =
      1000000 - 400000 + 0 ∧
    (IDPC.calcularSinIncentivo 1000000 400000 0 50000).idpc_sin_incentivo =
      Int.tdiv (1000000 - 400000 + 0) 8 ∧
    (0 ≤ (1000000 : Int) - 400000 + 0 →
      (IDPC.calcularSinIncentivo 1000000 400000 0 50000).idpc_sin_incentivo =
        Int.fdiv (1000000 - 400000 + 0) 8) ∧
    (IDPC.calcularSinIncentivo 1000000 400000 0 50000).saldo_sin_incentivo =
      (IDPC.calcularSinIncentivo 1000000 400000 0 50000).idpc_sin_incentivo - 50000 :=
  c1_sin_incentivo 1000000 400000 0 50000 (by decide) (by decide) (by decide) (by decide)

/-! ## Claim C4 -/

/-- C4: in mode WITH_INCENTIVE, whenever the invested base
`sub_base - withdrawals - historical_fines - historical_tax_paid` is
negative and the savings limit is non-negative, the deduction and the
income tax are both 0, while `rli_invertida` itself is stored
un-clamped. -/
theorem c4_con_incentivo (ti te tg ppm retiros mh ih uf : Int)
    (hneg : ti - te + tg - retiros - mh - ih < 0) (huf : 0 ≤ uf) :
    (IDPC.calcularConIncentivo ti te tg ppm retiros mh ih uf).rli_invertida =
      ti - te + tg - retiros - mh - ih ∧
    (IDPC.calcularConIncentivo ti te tg ppm retiros mh ih uf).deduccion_incentivo = 0 ∧
    (IDPC.calcularConIncentivo ti te tg ppm retiros mh ih uf).idpc_con_incentivo = 0 := by
  have hp : Int.tdiv (ti - te + tg - retiros - mh - ih) 2 ≤ 0 := IDPC.tdiv_dos_nonpos hneg
  have hmin : min (Int.tdiv (ti - te + tg - retiros - mh - ih) 2) uf ≤ 0 :=
    le_trans (min_le_left _ _) hp
  have hded : (if min (Int.tdiv (ti - te + tg - retiros - mh - ih) 2) uf < 0 then (0 : Int)
      else min (Int.tdiv (ti - te + tg - retiros - mh - ih) 2) uf) = 0 := by
    split_ifs with h
    · rfl
    · exact le_antisymm hmin (not_lt.mp h)
  refine ⟨rfl, hded, ?_⟩
  show Int.tdiv (if min (Int.tdiv (ti - te + tg - retiros - mh - ih) 2) uf < 0 then (0 : Int)
      else min (Int.tdiv (ti - te + tg - retiros - mh - ih) 2) uf) 8 = 0
  rw [hded]
  rfl

/-- C4 witness: withdrawals exceed the sub base
(`sub_base = 0`, `withdrawals = 5`), savings limit 100. -/
theorem c4_witness :
    (IDPC.calcularConIncentivo 0 0 0 0 5 0 0 100).rli_invertida =
      0 - 0 + 0 - 5 - 0 - 0 ∧
    (IDPC.calcularConIncentivo 0 0 0 0 5 0 0 100).deduccion_incentivo = 0 ∧
    (IDPC.calcularConIncentivo 0 0 0 0 5 0 0 100).idpc_con_incentivo = 0 :=
  c4_con_incentivo 0 0 0 0 5 0 0 100 (by decide) (by decide)

/-! ## Dict key lemmas and the column-count lemma (for C2) -/

namespace IDPC

theorem mem_keys_dictSet {α : Type} (l : List (String × α)) (k : String) (v : α)
    (m : String) :
    m ∈ (dictSet l k v).map Prod.fst ↔ m ∈ l.map Prod.fst ∨ m = k := by
  induction l with
  | nil => simp [dictSet]
  | cons hd tl ih =>
    obtain ⟨k0, v0⟩ := hd
    by_cases h : k0 = k
    · subst h
      simp [dictSet]
      tauto
    · simp [dictSet, h, ih]
      tauto

theorem nodup_keys_dictSet {α : Type} (l : List (String × α)) (k : String) (v : α)
    (h : (l.map Prod.fst).Nodup) : ((dictSet l k v).map Prod.fst).Nodup := by
  induction l with
  | nil => simp [dictSet]
  | cons hd tl ih =>
    obtain ⟨k0, v0⟩ := hd
    simp only [List.map_cons, List.nodup_cons] at h
    by_cases hk : k0 = k
    · subst hk
      simpa [dictSet] using h
    · simp only [dictSet, if_neg hk, List.map_cons, List.nodup_cons]
      refine ⟨?_, ih h.2⟩
      rw [mem_keys_dictSet]
      rintro (hmem | rfl)
      · exact h.1 hmem
      · exact hk rfl

theorem mem_keys_fold_paso (ws : List Word) :
    ∀ (cols : List (String × Frac)) (m : String),
      m ∈ ((ws.foldl pasoEncabezado cols).map Prod.fst) ↔
        m ∈ cols.map Prod.fst ∨
          ∃ w ∈ ws, etiquetaColumna (strUpper w.text) = some m := by
  induction ws with
  | nil => simp
  | cons w ws ih =>
    intro cols m
    rw [List.foldl_cons, ih]
    cases h : etiquetaColumna (strUpper w.text) with
    | none => simp [pasoEncabezado, h]
    | some nombre =>
      simp only [pasoEncabezado, h, mem_keys_dictSet, List.mem_cons]
      constructor
      · rintro (⟨hmem | rfl⟩ | ⟨w2, hw2, h2⟩)
        · exact Or.inl hmem
        · exact Or.inr ⟨w, Or.inl rfl, h⟩
        · exact Or.inr ⟨w2, Or.inr hw2, h2⟩
      · rintro (hmem | ⟨w2, (rfl | hw2), h2⟩)
        · exact Or.inl (Or.inl hmem)
        · rw [h] at h2
          exact Or.inl (Or.inr (Option.some_injective _ h2).symm)
        · exact Or.inr ⟨w2, hw2, h2⟩

theorem nodup_keys_fold_paso (ws : List Word) :
    ∀ (cols : List (String × Frac)), (cols.map Prod.fst).Nodup →
      ((ws.foldl pasoEncabezado cols).map Prod.fst).Nodup := by
  induction ws with
  | nil => exact fun cols h => h
  | cons w ws ih =>
    intro cols h
    rw [List.foldl_cons]
    apply ih
    unfold pasoEncabezado
    cases etiquetaColumna (strUpper w.text) with
    | none => exact h
    | some nombre => exact nodup_keys_dictSet cols nombre (centroX w) h

theorem etiqueta_mem_todas {t m : String} (h : etiquetaColumna t = some m) :
    m ∈ etiquetasTodas := by
  unfold etiquetaColumna at h
  split_ifs at h <;>
    first
      | exact Option.noConfusion h
      | · rw [Option.some_inj] at h
          subst h
          decide

theorem etiqueta_encabezado {t m : String} (h : etiquetaColumna t = some m) :
    esPalabraEncabezado t = true := by
  unfold etiquetaColumna at h
  split_ifs at h with h1 h2 h3 h4 h5 h6 h7 h8 h9 h10 <;>
    first
      | exact Option.noConfusion h
      | (subst_vars; decide)

theorem detect_length_eq (words : List Word) :
    (detectarColumnasX words).length = cuentaEtiquetas words := by
  have hkeys_mem : ∀ m, m ∈ (detectarColumnasX words).map Prod.fst ↔
      ∃ w ∈ words, etiquetaColumna (strUpper w.text) = some m := by
    intro m
    unfold detectarColumnasX
    rw [mem_keys_fold_paso]
    simp only [List.map_nil, List.not_mem_nil, false_or]
    constructor
    · rintro ⟨w, hw, h⟩
      exact ⟨w, (List.mem_filter.mp hw).1, h⟩
    · rintro ⟨w, hw, h⟩
      exact ⟨w, List.mem_filter.mpr ⟨hw, etiqueta_encabezado h⟩, h⟩
  have hnodup : ((detectarColumnasX words).map Prod.fst).Nodup := by
    unfold detectarColumnasX
    exact nodup_keys_fold_paso _ [] (by simp)
  have hfil_nodup : (etiquetasTodas.filter (etiquetaCoincide words)).Nodup :=
    List.Nodup.filter _ (by decide)
  have hperm : List.Perm ((detectarColumnasX words).map Prod.fst)
      (etiquetasTodas.filter (etiquetaCoincide words)) := by
    rw [List.perm_ext_iff_of_nodup hnodup hfil_nodup]
    intro m
    rw [hkeys_mem, List.mem_filter]
    constructor
    · rintro ⟨w, hw, h⟩
      refine ⟨etiqueta_mem_todas h, ?_⟩
      unfold etiquetaCoincide
      rw [List.any_eq_true]
      exact ⟨w, hw, by simp [h]⟩
    · rintro ⟨hm, hc⟩
      unfold etiquetaCoincide at hc
      rw [List.any_eq_true] at hc
      obtain ⟨w, hw, hbeq⟩ := hc
      exact ⟨w, hw, by simpa using hbeq⟩
  have h1 := hperm.length_eq
  rw [List.length_map] at h1
  exact h1

end IDPC

/-! ## Claim C2 -/

/-- C2 counterexample.  A page whose headers expose `CODIGO`, `CUENTA`,
`DEBITOS`, `CREDITOS` matches only 2 of the 8 numeric columns, yet the
code keeps the header-derived centers (the anchors count toward the
`len(cols) < 4` threshold), contradicting the claim that the
proportional fallback is used whenever fewer than 4 numeric columns
match. -/
theorem c2_counterexample :
    IDPC.cuentaEtiquetasNumericas IDPC.palabrasEncabezadoEjemplo = 2 ∧
    IDPC.cuentaEtiquetasNumericas IDPC.palabrasEncabezadoEjemplo < 4 ∧
    IDPC.columnasParaPagina IDPC.palabrasEncabezadoEjemplo (IDPC.Frac.ofInt 100) =
      IDPC.detectarColumnasX IDPC.palabrasEncabezadoEjemplo ∧
    (IDPC.columnasParaPagina IDPC.palabrasEncabezadoEjemplo (IDPC.Frac.ofInt 100)).map
        Prod.fst ≠
      (IDPC.estimarColumnasPorPosicion (IDPC.Frac.ofInt 100)).map Prod.fst := by
  decide

/-- C2 (amended): the proportional fallback is used exactly when fewer
than 4 column labels in total were matched by the header scan, where the
non-numeric `codigo`/`cuenta` anchors count toward the threshold; with 4
or more total matches the header-derived centers are kept. -/
theorem c2_umbral (words : List IDPC.Word) (width : IDPC.Frac) :
    (IDPC.cuentaEtiquetas words < 4 →
      IDPC.columnasParaPagina words width = IDPC.estimarColumnasPorPosicion width) ∧
    (4 ≤ IDPC.cuentaEtiquetas words →
      IDPC.columnasParaPagina words width = IDPC.detectarColumnasX words) := by
  have hd : IDPC.columnasParaPagina words width =
      if (IDPC.detectarColumnasX words).length < 4 then
        IDPC.estimarColumnasPorPosicion width
      else IDPC.detectarColumnasX words := rfl
  rw [hd, IDPC.detect_length_eq]
  constructor
  · intro h
    rw [if_pos h]
  · intro h
    rw [if_neg (by omega)]

/-- C2 witness: on the concrete 4-label header page the total count is 4,
so the header-derived centers are kept. -/
theorem c2_witness :
    4 ≤ IDPC.cuentaEtiquetas IDPC.palabrasEncabezadoEjemplo ∧
    IDPC.columnasParaPagina IDPC.palabrasEncabezadoEjemplo (IDPC.Frac.ofInt 100) =
      IDPC.detectarColumnasX IDPC.palabrasEncabezadoEjemplo :=
  ⟨by decide, (c2_umbral IDPC.palabrasEncabezadoEjemplo (IDPC.Frac.ofInt 100)).2 (by decide)⟩

/-! ## Accumulation lemmas (for C3, C6, C9) -/

namespace IDPC

theorem someAdd_none_right (a : Option Int) : someAdd a none = a := by
  cases a <;> rfl

theorem someAdd_assoc (a b c : Option Int) :
    someAdd (someAdd a b) c = someAdd a (someAdd b c) := by
  cases a <;> cases b <;> cases c <;> simp [someAdd, Int.add_assoc]

theorem someAdd_left_swap (a b c : Option Int) :
    someAdd a (someAdd b c) = someAdd b (someAdd a c) := by
  cases a <;> cases b <;> cases c <;> simp [someAdd] <;> omega

theorem dictGet_dictAdd (m : List (String × Int)) (k key : String) (v : Int) :
    dictGet? (dictAdd m k v) key =
      if key = k then someAdd (dictGet? m key) (some v) else dictGet? m key := by
  induction m with
  | nil =>
    rcases eq_or_ne key k with h | h
    · subst h
      simp [dictAdd, dictGet?, someAdd]
    · simp [dictAdd, dictGet?, h, Ne.symm h]
  | cons hd tl ih =>
    obtain ⟨k0, w⟩ := hd
    rcases eq_or_ne k0 k with h0 | h0
    · subst h0
      rcases eq_or_ne k0 key with h1 | h1
      · subst h1
        simp [dictAdd, dictGet?, someAdd]
      · simp [dictAdd, dictGet?, h1, Ne.symm h1]
    · rcases eq_or_ne k0 key with h1 | h1
      · subst h1
        simp [dictAdd, dictGet?, h0, Ne.symm h0]
      · simp [dictAdd, dictGet?, h0, h1, ih]

theorem lookup_acumular (nuevos : List (String × Int)) :
    ∀ (base : List (String × Int)) (key : String),
      dictGet? (acumularMontos base nuevos) key =
        someAdd (dictGet? base key) (sumaClave key nuevos) := by
  induction nuevos with
  | nil =>
    intro base key
    simp [acumularMontos, sumaClave, someAdd_none_right]
  | cons kv rest ih =>
    intro base key
    have hstep : acumularMontos base (kv :: rest) =
        acumularMontos (dictAdd base kv.1 kv.2) rest := rfl
    rw [hstep, ih, dictGet_dictAdd]
    rcases eq_or_ne key kv.1 with h | h
    · rw [if_pos h]
      have hs : sumaClave key (kv :: rest) = someAdd (some kv.2) (sumaClave key rest) := by
        simp [sumaClave, h.symm]
      rw [hs, someAdd_assoc]
    · rw [if_neg h]
      have hs : sumaClave key (kv :: rest) = sumaClave key rest := by
        simp [sumaClave, Ne.symm h]
      rw [hs]

theorem mem_keys_dictAdd (m : List (String × Int)) (k key : String) (v : Int) :
    key ∈ (dictAdd m k v).map Prod.fst ↔ key ∈ m.map Prod.fst ∨ key = k := by
  induction m with
  | nil => simp [dictAdd]
  | cons hd tl ih =>
    obtain ⟨k0, w⟩ := hd
    by_cases h : k0 = k
    · subst h
      simp [dictAdd]
      tauto
    · simp [dictAdd, h, ih]
      tauto

theorem nodup_keys_dictAdd (m : List (String × Int)) (k : String) (v : Int)
    (h : (m.map Prod.fst).Nodup) : ((dictAdd m k v).map Prod.fst).Nodup := by
  induction m with
  | nil => simp [dictAdd]
  | cons hd tl ih =>
    obtain ⟨k0, w⟩ := hd
    simp only [List.map_cons, List.nodup_cons] at h
    by_cases hk : k0 = k
    · subst hk
      simpa [dictAdd] using h
    · simp only [dictAdd, if_neg hk, List.map_cons, List.nodup_cons]
      refine ⟨?_, ih h.2⟩
      rw [mem_keys_dictAdd]
      rintro (hmem | rfl)
      · exact h.1 hmem
      · exact hk rfl

theorem nodup_keys_montosDeFila (cols : List (String × Frac)) (fila : List Word) :
    ((montosDeFila cols fila).map Prod.fst).Nodup := by
  unfold montosDeFila
  generalize valoresDeFila fila = vals
  suffices h : ∀ (vals : List (Frac × Int)) (m : List (String × Int)),
      (m.map Prod.fst).Nodup →
      ((vals.foldl (pasoValor cols) m).map Prod.fst).Nodup by
    exact h vals [] (by simp)
  intro vals
  induction vals with
  | nil => exact fun m hm => hm
  | cons xv rest ih =>
    intro m hm
    rw [List.foldl_cons]
    apply ih
    unfold pasoValor
    cases asignarColumna xv.1 (colsNumericas cols) with
    | none => exact hm
    | some col =>
      by_cases hv : 0 < xv.2
      · simpa [hv] using nodup_keys_dictAdd m col xv.2 hm
      · simpa [hv] using hm

theorem sumaClave_eq_none (key : String) (m : List (String × Int))
    (h : key ∉ m.map Prod.fst) : sumaClave key m = none := by
  induction m with
  | nil => rfl
  | cons kv rest ih =>
    simp only [List.map_cons, List.mem_cons, not_or] at h
    simp [sumaClave, Ne.symm h.1, ih h.2]

theorem sumaClave_eq_get (key : String) (m : List (String × Int))
    (h : (m.map Prod.fst).Nodup) : sumaClave key m = dictGet? m key := by
  induction m with
  | nil => rfl
  | cons kv rest ih =>
    obtain ⟨k0, v0⟩ := kv
    simp only [List.map_cons, List.nodup_cons] at h
    rcases eq_or_ne k0 key with h0 | h0
    · subst h0
      have hs : sumaClave k0 ((k0, v0) :: rest) =
          someAdd (some v0) (sumaClave k0 rest) := by simp [sumaClave]
      rw [hs, sumaClave_eq_none k0 rest h.1, someAdd_none_right]
      simp [dictGet?]
    · simp [sumaClave, h0, dictGet?, ih h.2]

end IDPC

/-! ## Ledger merge lemmas -/

namespace IDPC

theorem dictGet_append_left {α : Type} (l1 l2 : List (String × α)) (key : String) (v : α)
    (h : dictGet? l1 key = some v) : dictGet? (l1 ++ l2) key = some v := by
  induction l1 with
  | nil => exact absurd h (by simp [dictGet?])
  | cons kv rest ih =>
    obtain ⟨k0, w⟩ := kv
    by_cases hk : k0 = key
    · subst hk
      simp [dictGet?] at h ⊢
      exact h
    · simp [dictGet?, hk] at h ⊢
      exact ih h

theorem dictGet_append_right {α : Type} (l1 l2 : List (String × α)) (key : String)
    (h : dictGet? l1 key = none) : dictGet? (l1 ++ l2) key = dictGet? l2 key := by
  induction l1 with
  | nil => rfl
  | cons kv rest ih =>
    obtain ⟨k0, w⟩ := kv
    by_cases hk : k0 = key
    · simp [dictGet?, hk] at h
    · simp [dictGet?, hk] at h ⊢
      exact ih h

theorem dictGet_actualizar_self (c : Cuentas) (key : String) (nuevo : Registro)
    (h : (dictGet? c key).isSome) :
    dictGet? (actualizarPrimera c key nuevo) key = some nuevo := by
  induction c with
  | nil => simp [dictGet?] at h
  | cons kv rest ih =>
    obtain ⟨k0, r⟩ := kv
    by_cases hk : k0 = key
    · subst hk
      simp [actualizarPrimera, dictGet?]
    · simp [actualizarPrimera, dictGet?, hk] at h ⊢
      exact ih h

theorem dictGet_actualizar_other (c : Cuentas) (key q : String) (nuevo : Registro)
    (h : q ≠ key) :
    dictGet? (actualizarPrimera c key nuevo) q = dictGet? c q := by
  induction c with
  | nil => rfl
  | cons kv rest ih =>
    obtain ⟨k0, r⟩ := kv
    by_cases hk : k0 = key
    · subst hk
      simp [actualizarPrimera, dictGet?, Ne.symm h]
    · simp [actualizarPrimera, dictGet?, hk, ih]

theorem keys_actualizar (c : Cuentas) (key : String) (nuevo : Registro) :
    (actualizarPrimera c key nuevo).map Prod.fst = c.map Prod.fst := by
  induction c with
  | nil => rfl
  | cons kv rest ih =>
    obtain ⟨k0, r⟩ := kv
    by_cases hk : k0 = key
    · simp [actualizarPrimera, hk]
    · simp [actualizarPrimera, hk, ih]

theorem montoDe_merge (c : Cuentas) (cod : String) (reg : Registro)
    (hnd : (reg.montos.map Prod.fst).Nodup) (code col : String) :
    montoDe (mergeCuenta c cod reg) code col =
      if code = cod then someAdd (montoDe c code col) (dictGet? reg.montos col)
      else montoDe c code col := by
  cases hv : dictGet? c cod with
  | none =>
    have hm : mergeCuenta c cod reg = c ++ [(cod, reg)] := by
      unfold mergeCuenta
      rw [hv]
    rw [hm]
    rcases eq_or_ne code cod with h | h
    · subst h
      rw [if_pos rfl]
      unfold montoDe
      rw [hv, dictGet_append_right c [(code, reg)] code hv]
      simp [dictGet?, someAdd]
    · rw [if_neg h]
      unfold montoDe
      cases hv2 : dictGet? c code with
      | none =>
        rw [dictGet_append_right c _ code hv2]
        simp [dictGet?, Ne.symm h]
      | some r =>
        rw [dictGet_append_left c _ code r hv2]
  | some viejo =>
    have hm : mergeCuenta c cod reg =
        actualizarPrimera c cod ⟨viejo.cuenta, acumularMontos viejo.montos reg.montos⟩ := by
      unfold mergeCuenta
      rw [hv]
    rw [hm]
    rcases eq_or_ne code cod with h | h
    · subst h
      rw [if_pos rfl]
      unfold montoDe
      rw [dictGet_actualizar_self c code _ (by rw [hv]; rfl), hv]
      show dictGet? (acumularMontos viejo.montos reg.montos) col =
        someAdd (dictGet? viejo.montos col) (dictGet? reg.montos col)
      rw [lookup_acumular, sumaClave_eq_get _ _ hnd]
    · rw [if_neg h]
      unfold montoDe
      rw [dictGet_actualizar_other c cod code _ h]

theorem existe_merge (c : Cuentas) (cod : String) (reg : Registro) (code : String) :
    existeCuenta (mergeCuenta c cod reg) code =
      (existeCuenta c code || decide (code = cod)) := by
  cases hv : dictGet? c cod with
  | none =>
    have hm : mergeCuenta c cod reg = c ++ [(cod, reg)] := by
      unfold mergeCuenta
      rw [hv]
    rw [hm]
    unfold existeCuenta
    cases hv2 : dictGet? c code with
    | some r =>
      rw [dictGet_append_left _ _ _ _ hv2]
      simp
    | none =>
      rw [dictGet_append_right _ _ _ hv2]
      rcases eq_or_ne code cod with h | h
      · subst h
        simp [dictGet?]
      · simp [dictGet?, Ne.symm h, h]
  | some viejo =>
    have hm : mergeCuenta c cod reg =
        actualizarPrimera c cod ⟨viejo.cuenta, acumularMontos viejo.montos reg.montos⟩ := by
      unfold mergeCuenta
      rw [hv]
    rw [hm]
    unfold existeCuenta
    rcases eq_or_ne code cod with h | h
    · subst h
      rw [dictGet_actualizar_self c code _ (by rw [hv]; rfl), hv]
      simp
    · rw [dictGet_actualizar_other c cod code _ h]
      simp [h]

end IDPC

/-! ## Row and page accumulation lemmas -/

namespace IDPC

theorem buscarCodigo_matches :
    ∀ (l : List String) (t : String) (i : Nat),
      buscarCodigo l = some (t, i) → matchesCodigo t = true := by
  intro l
  induction l with
  | nil =>
    intro t i h
    exact Option.noConfusion h
  | cons s rest ih =>
    intro t i h
    by_cases hs : matchesCodigo s = true
    · rw [buscarCodigo, if_pos hs] at h
      obtain ⟨rfl, rfl⟩ := Prod.mk.injEq .. ▸ Option.some_injective _ h
      exact hs
    · rw [buscarCodigo, if_neg hs] at h
      cases hr : buscarCodigo rest with
      | none =>
        rw [hr] at h
        exact Option.noConfusion h
      | some p =>
        rw [hr] at h
        simp only [Option.map_some'] at h
        obtain ⟨h1, _⟩ := Prod.mk.injEq .. ▸ Option.some_injective _ h
        rw [← h1]
        exact ih p.1 p.2 hr

theorem efectoFila_eq_none (cols : List (String × Frac)) (fila : List Word)
    (h : buscarCodigo ((ordenarFila fila).map Word.text) = none) :
    efectoFila cols fila = none := by
  unfold efectoFila
  rw [h]

theorem efectoFila_eq_some (cols : List (String × Frac)) (fila : List Word)
    (t : String) (i : Nat)
    (h : buscarCodigo ((ordenarFila fila).map Word.text) = some (t, i)) :
    efectoFila cols fila =
      if (valoresDeFila fila).isEmpty then none
      else if tieneRelevante (montosDeFila cols fila) then
        some (t, ⟨nombreDeFila fila i, montosDeFila cols fila⟩)
      else none := by
  unfold efectoFila
  rw [h]

theorem efectoFila_casos (cols : List (String × Frac)) (fila : List Word)
    (cod : String) (reg : Registro) (h : efectoFila cols fila = some (cod, reg)) :
    ∃ i, buscarCodigo ((ordenarFila fila).map Word.text) = some (cod, i) ∧
      reg.montos = montosDeFila cols fila := by
  cases hb : buscarCodigo ((ordenarFila fila).map Word.text) with
  | none =>
    rw [efectoFila_eq_none cols fila hb] at h
    exact Option.noConfusion h
  | some p =>
    obtain ⟨t, i⟩ := p
    rw [efectoFila_eq_some cols fila t i hb] at h
    by_cases hvac : (valoresDeFila fila).isEmpty
    · rw [if_pos hvac] at h
      exact Option.noConfusion h
    · rw [if_neg hvac] at h
      by_cases hrel : tieneRelevante (montosDeFila cols fila) = true
      · rw [if_pos hrel] at h
        obtain ⟨h1, h2⟩ := Prod.mk.injEq .. ▸ Option.some_injective _ h
        refine ⟨i, ?_, ?_⟩
        · rw [h1]
        · rw [← h2]
      · rw [if_neg hrel] at h
        exact Option.noConfusion h

theorem efectoFila_codigo (cols : List (String × Frac)) (fila : List Word)
    (cod : String) (reg : Registro)
    (h : efectoFila cols fila = some (cod, reg)) : matchesCodigo cod = true := by
  obtain ⟨i, hb, _⟩ := efectoFila_casos cols fila cod reg h
  exact buscarCodigo_matches _ _ _ hb

theorem efectoFila_nodup (cols : List (String × Frac)) (fila : List Word)
    (cod : String) (reg : Registro)
    (h : efectoFila cols fila = some (cod, reg)) :
    (reg.montos.map Prod.fst).Nodup := by
  obtain ⟨i, _, hm⟩ := efectoFila_casos cols fila cod reg h
  rw [hm]
  exact nodup_keys_montosDeFila cols fila

theorem montoDe_pasoFila (cols : List (String × Frac)) (c : Cuentas)
    (fila : Int × List Word) (code col : String) :
    montoDe (pasoFila cols c fila) code col =
      someAdd (montoDe c code col) (contribFila cols fila.2 code col) := by
  unfold pasoFila contribFila
  cases he : efectoFila cols fila.2 with
  | none => simp [someAdd_none_right]
  | some pr =>
    obtain ⟨cod, reg⟩ := pr
    simp only
    rw [montoDe_merge c cod reg (efectoFila_nodup _ _ _ _ he) code col]
    rcases eq_or_ne code cod with h | h
    · subst h
      simp
    · simp [h, Ne.symm h, someAdd_none_right]

theorem montoDe_fold_filas (cols : List (String × Frac)) (code col : String) :
    ∀ (filas : List (Int × List Word)) (c : Cuentas),
      montoDe (filas.foldl (pasoFila cols) c) code col =
        someAdd (montoDe c code col)
          (listaSomeAdd (filas.map (fun fila => contribFila cols fila.2 code col))) := by
  intro filas
  induction filas with
  | nil =>
    intro c
    simp [listaSomeAdd, someAdd_none_right]
  | cons fila rest ih =>
    intro c
    rw [List.foldl_cons, ih, montoDe_pasoFila, someAdd_assoc]
    rfl

theorem montoDe_pagina (p : Page) (c : Cuentas) (code col : String) :
    montoDe (extraerCuentasPagina p c) code col =
      someAdd (montoDe c code col) (listaSomeAdd (contribsDePagina p code col)) := by
  unfold extraerCuentasPagina contribsDePagina
  by_cases hw : p.words.isEmpty
  · simp [hw, listaSomeAdd, someAdd_none_right]
  · simp only [hw, Bool.false_eq_true, if_false]
    exact montoDe_fold_filas _ _ _ _ c

theorem listaSomeAdd_append (l1 l2 : List (Option Int)) :
    listaSomeAdd (l1 ++ l2) = someAdd (listaSomeAdd l1) (listaSomeAdd l2) := by
  induction l1 with
  | nil => rfl
  | cons x xs ih =>
    show someAdd x (listaSomeAdd (xs ++ l2)) = someAdd (someAdd x (listaSomeAdd xs)) (listaSomeAdd l2)
    rw [ih, someAdd_assoc]

theorem montoDe_doc (pages : List Page) (code col : String) :
    montoDe (extraerTodasLasPaginas pages) code col =
      listaSomeAdd (contribFilasDoc pages code col) := by
  suffices h : ∀ (ps : List Page) (c : Cuentas),
      montoDe (ps.foldl (fun c p => extraerCuentasPagina p c) c) code col =
        someAdd (montoDe c code col)
          (listaSomeAdd ((ps.map (fun p => contribsDePagina p code col)).flatten)) by
    have h2 := h pages []
    unfold extraerTodasLasPaginas contribFilasDoc
    rw [h2]
    rfl
  intro ps
  induction ps with
  | nil =>
    intro c
    simp [listaSomeAdd, someAdd_none_right]
  | cons p rest ih =>
    intro c
    rw [List.foldl_cons, ih, montoDe_pagina, someAdd_assoc]
    rw [List.map_cons, List.flatten_cons, listaSomeAdd_append]

theorem existe_pasoFila (cols : List (String × Frac)) (c : Cuentas)
    (fila : Int × List Word) (code : String) :
    existeCuenta (pasoFila cols c fila) code =
      (existeCuenta c code || filaAporta cols fila.2 code) := by
  unfold pasoFila filaAporta
  cases he : efectoFila cols fila.2 with
  | none => simp
  | some pr =>
    obtain ⟨cod, reg⟩ := pr
    simp only
    rw [existe_merge]
    rcases eq_or_ne code cod with h | h
    · subst h
      simp
    · simp [h, Ne.symm h]

theorem existe_fold_filas (cols : List (String × Frac)) (code : String) :
    ∀ (filas : List (Int × List Word)) (c : Cuentas),
      existeCuenta (filas.foldl (pasoFila cols) c) code =
        (existeCuenta c code ||
          filas.any (fun fila => filaAporta cols fila.2 code)) := by
  intro filas
  induction filas with
  | nil =>
    intro c
    simp
  | cons fila rest ih =>
    intro c
    rw [List.foldl_cons, ih, existe_pasoFila, List.any_cons, Bool.or_assoc]

theorem existe_pagina (p : Page) (c : Cuentas) (code : String) :
    existeCuenta (extraerCuentasPagina p c) code =
      (existeCuenta c code || paginaTieneCodigo p code) := by
  unfold extraerCuentasPagina paginaTieneCodigo
  by_cases hw : p.words.isEmpty
  · simp [hw]
  · simp only [hw, Bool.false_eq_true, if_false, Bool.not_false, Bool.true_and]
    exact existe_fold_filas _ _ _ c

theorem existe_doc (pages : List Page) (code : String) :
    existeCuenta (extraerTodasLasPaginas pages) code =
      pages.any (fun p => paginaTieneCodigo p code) := by
  suffices h : ∀ (ps : List Page) (c : Cuentas),
      existeCuenta (ps.foldl (fun c p => extraerCuentasPagina p c) c) code =
        (existeCuenta c code || ps.any (fun p => paginaTieneCodigo p code)) by
    have h2 := h pages []
    unfold extraerTodasLasPaginas
    rw [h2]
    simp [existeCuenta, dictGet?]
  intro ps
  induction ps with
  | nil =>
    intro c
    simp
  | cons p rest ih =>
    intro c
    rw [List.foldl_cons, ih, existe_pagina, List.any_cons, Bool.or_assoc]

theorem listaSomeAdd_perm {l1 l2 : List (Option Int)} (h : List.Perm l1 l2) :
    listaSomeAdd l1 = listaSomeAdd l2 := by
  induction h with
  | nil => rfl
  | cons x h ih =>
    show someAdd x (listaSomeAdd _) = someAdd x (listaSomeAdd _)
    rw [ih]
  | swap x y l =>
    show someAdd y (someAdd x (listaSomeAdd l)) = someAdd x (someAdd y (listaSomeAdd l))
    exact someAdd_left_swap y x _
  | trans h1 h2 ih1 ih2 => rw [ih1, ih2]

theorem any_perm {α : Type} {l1 l2 : List α} (h : List.Perm l1 l2) (f : α → Bool) :
    l1.any f = l2.any f := by
  induction h with
  | nil => rfl
  | cons x h ih => simp [List.any_cons, ih]
  | swap x y l =>
    simp only [List.any_cons]
    rw [← Bool.or_assoc, Bool.or_comm (f y) (f x), Bool.or_assoc]
  | trans h1 h2 ih1 ih2 => rw [ih1, ih2]

theorem listaSomeAdd_eq_filterMap (l : List (Option Int)) :
    listaSomeAdd l =
      if (l.filterMap id).isEmpty then none else some (l.filterMap id).sum := by
  induction l with
  | nil => rfl
  | cons x xs ih =>
    cases x with
    | none =>
      show listaSomeAdd xs = _
      rw [ih]
      rfl
    | some a =>
      show someAdd (some a) (listaSomeAdd xs) = _
      rw [ih]
      by_cases he : (xs.filterMap id).isEmpty
      · have hnil : xs.filterMap id = [] := by
          cases hx : xs.filterMap id with
          | nil => rfl
          | cons y ys =>
            rw [hx] at he
            exact absurd he (by simp)
        simp [someAdd, List.filterMap_cons, hnil]
      · have hne : xs.filterMap id ≠ [] := by
          intro hx
          rw [hx] at he
          exact he (by simp)
        simp [someAdd, List.filterMap_cons, he, hne]
end IDPC

set_option maxRecDepth 8192

/-! ## Claim C3 -/

/-- C3 counterexample.  The claim states that the stored amount is the
sum of ALL contributions of classified rows to a column, never dropped.
Document `[pagEj1, pagEj2]`: both pages contribute 123456 to `debitos`
(the code token itself sits on the `debitos` column), but the second
page's row has no balance-relevant column and is dropped whole, although
the code already exists in the ledger — the stored amount is 123456, not
the total 246912. -/
theorem c3_counterexample :
    IDPC.montoDe (IDPC.extraerTodasLasPaginas [IDPC.pagEj1, IDPC.pagEj2])
        "123456" "debitos" = some 123456 ∧
    (IDPC.contribucionesSinFiltroDe [IDPC.pagEj1, IDPC.pagEj2] "123456" "debitos").sum =
      246912 ∧
    IDPC.montoDe (IDPC.extraerTodasLasPaginas [IDPC.pagEj1, IDPC.pagEj2])
        "123456" "debitos" ≠
      some ((IDPC.contribucionesSinFiltroDe [IDPC.pagEj1, IDPC.pagEj2]
        "123456" "debitos").sum) := by
  refine ⟨by decide, by decide, by decide⟩

/-- C3 (amended): for every document, code and column, the stored amount
in the final ledger is exactly the sum `a1+...+an` of the per-row
contributions of the rows that pass the per-row balance-relevance filter
(and absent when no such row contributed); a row with no
balance-relevant amount is dropped whole — its contributions to any
column are not accumulated, even when its code already exists in the
ledger.  Within the kept rows nothing is overwritten: matching columns
are summed when a code recurs. -/
theorem c3_acumulacion (pages : List IDPC.Page) (code col : String) :
    IDPC.montoDe (IDPC.extraerTodasLasPaginas pages) code col =
      if (IDPC.contribucionesDe pages code col).isEmpty then none
      else some (IDPC.contribucionesDe pages code col).sum := by
  rw [IDPC.montoDe_doc, IDPC.listaSomeAdd_eq_filterMap]
  rfl

/-! ## Claim C6 -/

/-- C6: multi-page accumulation is order-independent: permuting the page
sequence leaves both the set of codes and every per-code per-column
stored amount unchanged. -/
theorem c6_permutacion (ps qs : List IDPC.Page) (h : List.Perm ps qs) :
    (∀ code, IDPC.existeCuenta (IDPC.extraerTodasLasPaginas ps) code =
      IDPC.existeCuenta (IDPC.extraerTodasLasPaginas qs) code) ∧
    (∀ code col, IDPC.montoDe (IDPC.extraerTodasLasPaginas ps) code col =
      IDPC.montoDe (IDPC.extraerTodasLasPaginas qs) code col) := by
  constructor
  · intro code
    rw [IDPC.existe_doc, IDPC.existe_doc]
    exact IDPC.any_perm h _
  · intro code col
    rw [IDPC.montoDe_doc, IDPC.montoDe_doc]
    exact IDPC.listaSomeAdd_perm
      ((h.map (fun p => IDPC.contribsDePagina p code col)).flatten)

/-- C6 witness: swapping the two concrete example pages leaves the
stored `debitos` amount of code 123456 unchanged. -/
theorem c6_witness :
    IDPC.montoDe (IDPC.extraerTodasLasPaginas [IDPC.pagEj1, IDPC.pagEj2])
        "123456" "debitos" =
      IDPC.montoDe (IDPC.extraerTodasLasPaginas [IDPC.pagEj2, IDPC.pagEj1])
        "123456" "debitos" :=
  (c6_permutacion [IDPC.pagEj1, IDPC.pagEj2] [IDPC.pagEj2, IDPC.pagEj1]
    (List.Perm.swap IDPC.pagEj2 IDPC.pagEj1 [])).2 "123456" "debitos"

/-! ## Claim C9 -/

namespace IDPC

theorem codigosValidos_claves (c : Cuentas) :
    codigosValidos c = (c.map Prod.fst).all matchesCodigo := by
  induction c with
  | nil => rfl
  | cons kv rest ih =>
    show (matchesCodigo kv.1 && codigosValidos rest) = _
    rw [ih]
    rfl

theorem codigosValidos_merge (c : Cuentas) (cod : String) (reg : Registro)
    (hc : codigosValidos c = true) (hcod : matchesCodigo cod = true) :
    codigosValidos (mergeCuenta c cod reg) = true := by
  cases hv : dictGet? c cod with
  | none =>
    have hm : mergeCuenta c cod reg = c ++ [(cod, reg)] := by
      unfold mergeCuenta
      rw [hv]
    rw [hm]
    unfold codigosValidos at hc ⊢
    rw [List.all_append]
    simp [hc, hcod]
  | some viejo =>
    have hm : mergeCuenta c cod reg =
        actualizarPrimera c cod ⟨viejo.cuenta, acumularMontos viejo.montos reg.montos⟩ := by
      unfold mergeCuenta
      rw [hv]
    rw [hm, codigosValidos_claves, keys_actualizar, ← codigosValidos_claves]
    exact hc

theorem codigosValidos_fold_filas (cols : List (String × Frac)) :
    ∀ (filas : List (Int × List Word)) (c : Cuentas),
      codigosValidos c = true → codigosValidos (filas.foldl (pasoFila cols) c) = true := by
  intro filas
  induction filas with
  | nil => exact fun c hc => hc
  | cons fila rest ih =>
    intro c hc
    rw [List.foldl_cons]
    apply ih
    unfold pasoFila
    cases he : efectoFila cols fila.2 with
    | none => exact hc
    | some pr =>
      obtain ⟨cod, reg⟩ := pr
      exact codigosValidos_merge c cod reg hc (efectoFila_codigo _ _ _ _ he)

theorem codigosValidos_pagina (p : Page) (c : Cuentas)
    (hc : codigosValidos c = true) :
    codigosValidos (extraerCuentasPagina p c) = true := by
  unfold extraerCuentasPagina
  by_cases hw : p.words.isEmpty
  · simpa [hw] using hc
  · simp only [hw, Bool.false_eq_true, if_false]
    exact codigosValidos_fold_filas _ _ c hc

end IDPC

/-- C9: every key of the ledger matches the strict 6-digit pattern, at
every point of construction: processing a page preserves the invariant
for every starting ledger (only tokens matching the pattern become code
anchors), and the full run from the empty ledger satisfies it. -/
theorem c9_invariante :
    (∀ (p : IDPC.Page) (c : IDPC.Cuentas), IDPC.codigosValidos c = true →
      IDPC.codigosValidos (IDPC.extraerCuentasPagina p c) = true) ∧
    (∀ pages : List IDPC.Page,
      IDPC.codigosValidos (IDPC.extraerTodasLasPaginas pages) = true) := by
  refine ⟨fun p c hc => IDPC.codigosValidos_pagina p c hc, ?_⟩
  intro pages
  suffices h : ∀ (ps : List IDPC.Page) (c : IDPC.Cuentas), IDPC.codigosValidos c = true →
      IDPC.codigosValidos (ps.foldl (fun c p => IDPC.extraerCuentasPagina p c) c) = true by
    exact h pages [] rfl
  intro ps
  induction ps with
  | nil => exact fun c hc => hc
  | cons p rest ih =>
    intro c hc
    rw [List.foldl_cons]
    exact ih _ (IDPC.codigosValidos_pagina p c hc)

/-- C9 witness: the invariant evaluated on the empty ledger and the
concrete example page. -/
theorem c9_witness :
    IDPC.codigosValidos [] = true ∧
    IDPC.codigosValidos (IDPC.extraerCuentasPagina IDPC.pagEj1 []) = true :=
  ⟨rfl, c9_invariante.1 IDPC.pagEj1 [] rfl⟩

/-! ## Claim C5 -/

namespace IDPC

theorem foldl_filtra_append {α β : Type} (p : α → Bool) (f : α → β) :
    ∀ (l : List α) (acc : List β),
      l.foldl (fun acc w => if p w then acc ++ [f w] else acc) acc =
        acc ++ (l.filter p).map f := by
  intro l
  induction l with
  | nil =>
    intro acc
    simp
  | cons w rest ih =>
    intro acc
    rw [List.foldl_cons]
    by_cases hw : p w = true
    · rw [if_pos hw, ih]
      simp [List.filter_cons, hw]
    · rw [if_neg hw, ih]
      simp [List.filter_cons, hw]

theorem valoresDeFila_eq (fila : List Word) :
    valoresDeFila fila =
      ((ordenarFila fila).filter (fun w => esNumerico w.text)).map
        (fun w => (centroX w, fmtNumero w.text)) := by
  unfold valoresDeFila
  rw [foldl_filtra_append (fun w => esNumerico w.text)
    (fun w => (centroX w, fmtNumero w.text)) (ordenarFila fila) []]
  rfl

theorem codigo_esNumerico (s : String) (h : matchesCodigo s = true) :
    esNumerico s = true := by
  unfold matchesCodigo at h
  unfold esNumerico
  rw [Bool.and_eq_true] at h
  obtain ⟨hlen, hall⟩ := h
  rw [Bool.and_eq_true]
  constructor
  · cases hd : s.data with
    | nil =>
      rw [hd] at hlen
      exact absurd hlen (by decide)
    | cons c rest => simp [hd]
  · rw [List.all_eq_true] at hall ⊢
    intro c hc
    simp [hall c hc]

theorem buscarCodigo_get :
    ∀ (l : List String) (t : String) (i : Nat),
      buscarCodigo l = some (t, i) → l.get? i = some t := by
  intro l
  induction l with
  | nil =>
    intro t i h
    exact Option.noConfusion h
  | cons s rest ih =>
    intro t i h
    by_cases hs : matchesCodigo s = true
    · rw [buscarCodigo, if_pos hs] at h
      obtain ⟨h1, h2⟩ := Prod.mk.injEq .. ▸ Option.some_injective _ h
      rw [← h2, ← h1]
      rfl
    · rw [buscarCodigo, if_neg hs] at h
      cases hr : buscarCodigo rest with
      | none =>
        rw [hr] at h
        exact Option.noConfusion h
      | some p =>
        rw [hr] at h
        simp only [Option.map_some'] at h
        obtain ⟨h1, h2⟩ := Prod.mk.injEq .. ▸ Option.some_injective _ h
        rw [← h2, ← h1]
        exact ih p.1 p.2 hr

end IDPC

/-- C5 counterexample.  The claim says the code anchor token carries its
digits parsed as a positive integer.  The row whose anchor is the code
`"000000"` is classified (the 6-digit pattern matches), and the anchor is
indeed a candidate value token, but it parses to 0, which is not
positive (and the positive-value guard then excludes it from column
assignment). -/
theorem c5_counterexample :
    IDPC.buscarCodigo ((IDPC.ordenarFila IDPC.filaCeroEjemplo).map IDPC.Word.text) =
      some ("000000", 0) ∧
    (IDPC.centroX ⟨"000000", ⟨0, 1⟩, ⟨2, 1⟩, ⟨0, 1⟩⟩, IDPC.fmtNumero "000000") ∈
      IDPC.valoresDeFila IDPC.filaCeroEjemplo ∧
    IDPC.fmtNumero "000000" = 0 ∧
    ¬(0 < IDPC.fmtNumero "000000") := by
  refine ⟨by decide, by decide, by decide, by decide⟩

/-- C5 (amended): for every classified row the candidate value token set
is exactly the tokens of the row whose text matches the digits-and-dots
pattern, each carrying its x-center and its digits parsed as a
non-negative integer; the 6-digit code anchor itself matches the pattern
and appears among the candidates (its parsed value is positive unless
the code is all zeros, in which case the positive-value guard later
excludes it from assignment). -/
theorem c5_candidatos (fila : List IDPC.Word) (cod : String) (i : Nat)
    (h : IDPC.buscarCodigo ((IDPC.ordenarFila fila).map IDPC.Word.text) = some (cod, i)) :
    IDPC.valoresDeFila fila =
      ((IDPC.ordenarFila fila).filter (fun w => IDPC.esNumerico w.text)).map
        (fun w => (IDPC.centroX w, IDPC.fmtNumero w.text)) ∧
    IDPC.matchesCodigo cod = true ∧
    IDPC.esNumerico cod = true ∧
    (∃ w ∈ IDPC.ordenarFila fila, w.text = cod ∧
      (IDPC.centroX w, IDPC.fmtNumero w.text) ∈ IDPC.valoresDeFila fila) ∧
    0 ≤ IDPC.fmtNumero cod := by
  have hmc : IDPC.matchesCodigo cod = true := IDPC.buscarCodigo_matches _ _ _ h
  have hnum : IDPC.esNumerico cod = true := IDPC.codigo_esNumerico cod hmc
  refine ⟨IDPC.valoresDeFila_eq fila, hmc, hnum, ?_, Int.ofNat_nonneg _⟩
  have hget := IDPC.buscarCodigo_get _ _ _ h
  rw [List.get?_map] at hget
  cases hw : (IDPC.ordenarFila fila).get? i with
  | none =>
    rw [hw] at hget
    exact Option.noConfusion hget
  | some w =>
    rw [hw] at hget
    simp only [Option.map_some'] at hget
    have htext : w.text = cod := Option.some_injective _ hget
    refine ⟨w, List.get?_mem hw, htext, ?_⟩
    rw [IDPC.valoresDeFila_eq fila]
    refine List.mem_map_of_mem _ ?_
    rw [List.mem_filter]
    exact ⟨List.get?_mem hw, by rw [htext]; exact hnum⟩

/-- C5 witness: the amended theorem applied to the concrete classified
row with anchor `"123456"`. -/
theorem c5_witness :
    IDPC.esNumerico "123456" = true ∧ 0 ≤ IDPC.fmtNumero "123456" :=
  ⟨(c5_candidatos IDPC.filaEjemploC5 "123456" 0 (by decide)).2.2.1,
   (c5_candidatos IDPC.filaEjemploC5 "123456" 0 (by decide)).2.2.2.2⟩

/-! ## Claim C10 -/

namespace IDPC

theorem buscarPrioridadAux_eq (m : List (String × Int)) :
    ∀ (orden : List String), buscarPrioridadAux m orden = primeraPositiva m orden := by
  intro orden
  induction orden with
  | nil => rfl
  | cons c rest ih =>
    unfold buscarPrioridadAux primeraPositiva
    cases hv : dictGet? m c with
    | none =>
      simp only [List.filterMap_cons, hv, Option.none_bind]
      exact ih
    | some v =>
      by_cases hp : (0 : Int) < v
      · simp [List.filterMap_cons, hv, hp]
      · simp only [List.filterMap_cons, hv, Option.some_bind, hp, if_false]
        exact ih

end IDPC

/-- C10 counterexample.  The claim says that when a column name is given,
`get_valor` returns that column's stored amount or 0 when the record has
no amount for that column.  For the empty-string column name, Python
truthiness sends the call into the priority scan instead: on a record
with `ganancias = 5` and no `""` column, the result is 5, not 0. -/
theorem c10_counterexample :
    IDPC.getValor IDPC.cuentasEjemploC10 "300101" (some "") = 5 ∧
    IDPC.dictGet? [("ganancias", (5 : Int))] "" = none ∧
    IDPC.getValor IDPC.cuentasEjemploC10 "300101" (some "") ≠ 0 := by
  refine ⟨by decide, by decide, by decide⟩

/-- C10 (amended): `get_valor` returns 0 for an absent code; for a
non-empty column name it returns that column's stored amount, or 0 when
the record has no amount for the column; with no column — or with the
empty-string column name, which Python truthiness treats like no
column — it returns the first strictly positive amount in the priority
order ganancias, perdidas, activos, pasivos, saldo_acreedor,
saldo_deudor, and 0 when none is present and positive. -/
theorem c10_getValor (cuentas : IDPC.Cuentas) (codigo : String) (columna : Option String) :
    (IDPC.dictGet? cuentas codigo = none → IDPC.getValor cuentas codigo columna = 0) ∧
    (∀ reg, IDPC.dictGet? cuentas codigo = some reg →
      (∀ c, columna = some c → c ≠ "" →
        IDPC.getValor cuentas codigo columna = (IDPC.dictGet? reg.montos c).getD 0) ∧
      ((columna = none ∨ columna = some "") →
        IDPC.getValor cuentas codigo columna =
          IDPC.primeraPositiva reg.montos IDPC.ordenPrioridad)) := by
  constructor
  · intro hn
    unfold IDPC.getValor
    rw [hn]
  · intro reg hs
    constructor
    · intro c hc hne
      unfold IDPC.getValor
      rw [hs, hc]
      simp [hne]
    · intro hcol
      unfold IDPC.getValor
      rw [hs]
      rcases hcol with rfl | rfl
      · exact IDPC.buscarPrioridadAux_eq reg.montos IDPC.ordenPrioridad
      · simp only [if_pos rfl]
        exact IDPC.buscarPrioridadAux_eq reg.montos IDPC.ordenPrioridad

/-- C10 witness: the amended theorem evaluated on the concrete ledger,
both for a present column and for the no-column priority scan. -/
theorem c10_witness :
    IDPC.getValor IDPC.cuentasEjemploC10 "300101" (some "ganancias") =
      (IDPC.dictGet? (IDPC.Registro.mk "VENTAS" [("ganancias", 5)]).montos "ganancias").getD 0 ∧
    IDPC.getValor IDPC.cuentasEjemploC10 "300101" none =
      IDPC.primeraPositiva (IDPC.Registro.mk "VENTAS" [("ganancias", 5)]).montos
        IDPC.ordenPrioridad :=
  ⟨((c10_getValor IDPC.cuentasEjemploC10 "300101" (some "ganancias")).2
      (IDPC.Registro.mk "VENTAS" [("ganancias", 5)]) (by decide)).1 "ganancias" rfl (by decide),
   ((c10_getValor IDPC.cuentasEjemploC10 "300101" none).2
      (IDPC.Registro.mk "VENTAS" [("ganancias", 5)]) (by decide)).2 (Or.inl rfl)⟩

/-! ## Claim C7 -/

/-- C7 counterexample.  The claim states that when no tax id occurs in
the first 15 non-empty lines, all fields other than the legal name
remain empty — including the period.  But the period is extracted from
the whole text before the tax-id search: on a text with a period line
and no tax id, the period field is non-empty. -/
theorem c7_counterexample :
    IDPC.buscarRutEnLineas ((IDPC.lineasNoVacias IDPC.textoEjemploC7).take 15) = none ∧
    (IDPC.extraerDatosEmpresa IDPC.textoEjemploC7).razon_social = "EMPRESA X" ∧
    (IDPC.extraerDatosEmpresa IDPC.textoEjemploC7).periodo =
      "DESDE ENERO DEL 2023 HASTA DICIEMBRE DEL 2023" ∧
    (IDPC.extraerDatosEmpresa IDPC.textoEjemploC7).periodo ≠ "" := by
  refine ⟨by decide, by decide, by decide, by decide⟩

/-- C7 (amended): when no tax-id match occurs within the first 15
non-empty lines, the legal name is the first non-empty line (empty when
there is none), the tax id, business activity, address and commune
remain empty, and the period holds whatever the independent full-text
period extraction produced (possibly non-empty). -/
theorem c7_sin_rut (texto : String)
    (h : IDPC.buscarRutEnLineas ((IDPC.lineasNoVacias texto).take 15) = none) :
    (IDPC.extraerDatosEmpresa texto).razon_social =
      (IDPC.lineasNoVacias texto).headD "" ∧
    (IDPC.extraerDatosEmpresa texto).rut = "" ∧
    (IDPC.extraerDatosEmpresa texto).giro = "" ∧
    (IDPC.extraerDatosEmpresa texto).direccion = "" ∧
    (IDPC.extraerDatosEmpresa texto).comuna = "" ∧
    (IDPC.extraerDatosEmpresa texto).periodo = IDPC.periodoDe texto := by
  unfold IDPC.extraerDatosEmpresa
  rw [h]
  cases hl : IDPC.lineasNoVacias texto with
  | nil => exact ⟨rfl, rfl, rfl, rfl, rfl, rfl⟩
  | cons l0 rest => exact ⟨rfl, rfl, rfl, rfl, rfl, rfl⟩

/-- C7 witness: the amended theorem on the concrete no-tax-id text. -/
theorem c7_witness :
    (IDPC.extraerDatosEmpresa IDPC.textoEjemploC7).razon_social =
      (IDPC.lineasNoVacias IDPC.textoEjemploC7).headD "" ∧
    (IDPC.extraerDatosEmpresa IDPC.textoEjemploC7).rut = "" ∧
    (IDPC.extraerDatosEmpresa IDPC.textoEjemploC7).giro = "" ∧
    (IDPC.extraerDatosEmpresa IDPC.textoEjemploC7).direccion = "" ∧
    (IDPC.extraerDatosEmpresa IDPC.textoEjemploC7).comuna = "" ∧
    (IDPC.extraerDatosEmpresa IDPC.textoEjemploC7).periodo =
      IDPC.periodoDe IDPC.textoEjemploC7 :=
  c7_sin_rut IDPC.textoEjemploC7 (by decide)

/-! ## Claim C8 -/

namespace IDPC

theorem buscarRutEnLineas_lt :
    ∀ (l : List String) (r : String) (i : Nat),
      buscarRutEnLineas l = some (r, i) → i < l.length := by
  intro l
  induction l with
  | nil =>
    intro r i h
    exact Option.noConfusion h
  | cons s rest ih =>
    intro r i h
    unfold buscarRutEnLineas at h
    cases hp : primerRut s.data with
    | some rr =>
      rw [hp] at h
      simp only [Option.some.injEq, Prod.mk.injEq] at h
      obtain ⟨-, h2⟩ := h
      simp [← h2]
    | none =>
      rw [hp] at h
      simp only [Option.map_eq_some'] at h
      obtain ⟨p, hp2, hfp⟩ := h
      have hlt := ih p.1 p.2 hp2
      simp only [Prod.mk.injEq] at hfp
      obtain ⟨-, h2⟩ := hfp
      simp only [List.length_cons]
      omega

theorem empresaConRutChk_ok (lineas : List String) (e1 : Empresa) (rut : String)
    (rutIdx : Nat) (h : rutIdx < lineas.length) :
    empresaConRutChk lineas e1 rut rutIdx =
      Except.ok (empresaConRut lineas e1 rut rutIdx) := by
  cases hx : lineas.get? rutIdx with
  | none =>
    rw [List.get?_eq_none] at hx
    omega
  | some lineaRut =>
    have hgetE : getE lineas rutIdx = Except.ok lineaRut := by
      unfold getE
      rw [hx]
    by_cases h0 : rutIdx > 0
    · have h1 : rutIdx - 1 < lineas.length := lt_of_le_of_lt (Nat.sub_le _ _) h
      cases hy : lineas.get? (rutIdx - 1) with
      | none =>
        rw [List.get?_eq_none] at hy
        omega
      | some prev =>
        have hgetE1 : getE lineas (rutIdx - 1) = Except.ok prev := by
          unfold getE
          rw [hy]
        unfold empresaConRutChk empresaConRut
        rw [if_pos h0, if_pos h0, hgetE1, hgetE, hy, hx]
        rfl
    · unfold empresaConRutChk empresaConRut
      rw [if_neg h0, if_neg h0, hgetE, hx]
      rfl

end IDPC

/-- C8: the header parse is total and never raises: the variant in which
every fallible operation (the raw list indexings of the source) is
explicit always returns `Except.ok` of the best-effort company record —
no input reaches an error branch. -/
theorem c8_total (texto : String) :
    IDPC.extraerDatosEmpresaChk texto =
      Except.ok (IDPC.extraerDatosEmpresa texto) := by
  unfold IDPC.extraerDatosEmpresaChk IDPC.extraerDatosEmpresa
  cases hb : IDPC.buscarRutEnLineas ((IDPC.lineasNoVacias texto).take 15) with
  | none =>
    cases IDPC.lineasNoVacias texto with
    | nil => rfl
    | cons l0 rest => rfl
  | some p =>
    obtain ⟨rut, rutIdx⟩ := p
    have hlt : rutIdx < (IDPC.lineasNoVacias texto).length := by
      have h1 := IDPC.buscarRutEnLineas_lt _ _ _ hb
      have h2 : ((IDPC.lineasNoVacias texto).take 15).length ≤
          (IDPC.lineasNoVacias texto).length := by
        rw [List.length_take]
        omega
      omega
    exact IDPC.empresaConRutChk_ok _ _ rut rutIdx hlt
